import Mathlib

/-!
Verification development for the shortfall simulator.

The development shallowly embeds the two Python source trees of the
repository:

* namespace `Shortfall` embeds the files under src/shortfall/
  (network.py, miners/base.py, miners/burn.py, miners/repay_ratchet.py);
* namespace `Toplevel` embeds the older top-level tree
  (network.py, miners/base.py, miners/repay_proportional.py), which is the
  home of the proportional-repayment miner variant.

Modelling conventions:

* Python floats are idealised as exact rationals (ℚ); decimal literals such
  as 0.25 or 0.3 denote the exact rationals 1/4 and 3/10.
* Python ints are ℤ (power) or ℕ (epochs and durations, which the code never
  makes negative).
* Division is Lean's total field division (x / 0 = 0).  Python instead raises
  ZeroDivisionError; every theorem below whose proof passes through a
  division carries hypotheses keeping the divisor meaningful, and no
  counterexample exploits a zero divisor.
* Python assert statements and raise statements are embedded as guards: an
  operation returns Except Err σ and yields .error exactly when Python would
  raise.  Operations mutating self become state-passing functions.
* The file consts.py is absent from src/ in both trees, and the module
  constants REWARD_DECAY and BASELINE_GROWTH are defined through math.exp,
  so they are not rational numbers.  Following the specification, these are
  gathered in a `Globals` parameter: SECTOR_SIZE is the fixed sector-size
  unit, DAY and YEAR are epoch counts, REWARD_DECAY and BASELINE_GROWTH are
  the geometric decay/growth rates.  All results are proved for every value
  of these parameters (with explicit sign hypotheses where needed), which
  subsumes the concrete constants.
* math.sqrt and the float power x ** e (used only inside
  receive_reward of the proportional and burn variants) are irrational-valued
  primitives; they are passed as explicit function arguments sqrt / powf, and
  every theorem about them assumes only the properties of the real functions
  that the proof needs (for example, sqrt maps (0, 1] into [0, 1]).  Concrete
  evaluations instantiate them at arguments 0 or 1 where their values are
  exact.
-/

/-- Modelled from the spec: the constants of the missing consts.py files and
the exp-defined module constants of network.py, taken as parameters. -/
structure Globals where
  SECTOR_SIZE : ℤ
  DAY : ℕ
  YEAR : ℕ
  REWARD_DECAY : ℚ
  BASELINE_GROWTH : ℚ
deriving DecidableEq, Repr

/-- Fraction of circulating supply targeted for locking (both network.py files). -/
def SUPPLY_LOCK_TARGET : ℚ := 3/10

/-- Initial-pledge projection period, 20 * DAY (both network.py files). -/
def Globals.INITIAL_PLEDGE_PROJECTION_PERIOD (g : Globals) : ℕ := 20 * g.DAY

/-- Closed form for SUM[(1-r)^x] for x in 0..duration (sum_over_exponential_decay,
identical in both network.py files). -/
def sum_over_exponential_decay (duration : ℕ) (decay : ℚ) : ℚ :=
  (1 - (1 - decay) ^ duration + decay * (1 - decay) ^ duration) / decay

/-- Errors raised by the embedded operations: assertion failures, the
RuntimeError for an illegal lock, the RuntimeError for an excessive computed
repayment take rate, and the RuntimeError for the proportional variant's
aggregate-satisfaction sanity check. -/
inductive Err
  | assertFail
  | invalidLock
  | takeRateExceeded
  | satisfactionBelowMin
deriving DecidableEq, Repr

/-- Caller-specified lock argument of activate_sectors: Python uses a float
defaulting to float("inf"), so the value is either infinity or a finite
rational. -/
inductive Lock
  | inf
  | fin (v : ℚ)
deriving DecidableEq, Repr

/-- SectorBunch (miners/base.py in both trees): a power quantity and the
pledge amount recorded for one activation batch. -/
structure SectorBunch where
  power : ℤ
  pledge : ℚ
deriving DecidableEq, Repr

/-- Deferred power-expiration table: epoch -> list of sector bunches. -/
abbrev ExpTable := List (ℕ × List SectorBunch)

/-- Vesting table: epoch -> vesting amount. -/
abbrev VestTable := List (ℕ × ℚ)

/-- Read a key of the expiration table, defaulting to the empty list
(dict.pop(epoch, []) reads this value). -/
def expGet (e : ℕ) (tbl : ExpTable) : List SectorBunch :=
  (tbl.lookup e).getD []

/-- Remove a key of the expiration table (the removal half of dict.pop). -/
def expDrop (e : ℕ) (tbl : ExpTable) : ExpTable :=
  tbl.filter (fun kv => kv.1 ≠ e)

/-- Append a bunch to the list at a key (self._expirations[e].append(sb) on a
defaultdict, or the setdefault(e, []).append(sb) form of the older tree). -/
def expPush (e : ℕ) (sb : SectorBunch) (tbl : ExpTable) : ExpTable :=
  (e, expGet e tbl ++ [sb]) :: expDrop e tbl

/-- Read a key of the vesting table, defaulting to 0 (dict.pop(epoch, 0.0)). -/
def vestGet (e : ℕ) (tbl : VestTable) : ℚ :=
  (tbl.lookup e).getD 0

/-- Remove a key of the vesting table. -/
def vestDrop (e : ℕ) (tbl : VestTable) : VestTable :=
  tbl.filter (fun kv => kv.1 ≠ e)

/-- Add to a key of the vesting table (self.vesting_table[e] += v on a
defaultdict). -/
def vestAdd (e : ℕ) (v : ℚ) (tbl : VestTable) : VestTable :=
  (e, vestGet e tbl + v) :: vestDrop e tbl

namespace Shortfall

/-- NetworkState of src/shortfall/network.py.  power_baseline is declared int
but handle_epoch multiplies it by (1 + BASELINE_GROWTH), making it a float;
it is therefore ℚ here. -/
structure NetworkState where
  epoch : ℕ
  power : ℤ
  power_baseline : ℚ
  circulating_supply : ℚ
  epoch_reward : ℚ
  reward_decay : ℚ
  token_lease_fee : ℚ
deriving DecidableEq, Repr

/-- NetworkState.handle_epoch of src/shortfall/network.py. -/
def NetworkState.handle_epoch (g : Globals) (net : NetworkState) : NetworkState :=
  { net with
    epoch := net.epoch + 1
    epoch_reward := net.epoch_reward * (1 - net.reward_decay)
    power_baseline := net.power_baseline * (1 + g.BASELINE_GROWTH) }

/-- NetworkState.projected_reward of src/shortfall/network.py: projects a
per-epoch reward over a duration under geometric decay.  The decay argument
defaults to the module constant REWARD_DECAY in Python; call sites here pass
the default explicitly. -/
def projected_reward (epoch_reward : ℚ) (duration : ℕ) (decay : ℚ) : ℚ :=
  epoch_reward * sum_over_exponential_decay duration decay

/-- NetworkState.expected_reward_for_power of src/shortfall/network.py. -/
def expected_reward_for_power (net : NetworkState) (power : ℤ) (duration : ℕ)
    (decay : ℚ) : ℚ :=
  if net.power ≤ 0 then projected_reward net.epoch_reward duration decay
  else projected_reward (net.epoch_reward * power / net.power) duration decay

/-- NetworkState.initial_pledge_for_power of src/shortfall/network.py.  Both
inner calls use the defaulted decay REWARD_DECAY. -/
def initial_pledge_for_power (g : Globals) (net : NetworkState) (power : ℤ) : ℚ :=
  let storage := expected_reward_for_power net power g.INITIAL_PLEDGE_PROJECTION_PERIOD
    g.REWARD_DECAY
  let consensus := net.circulating_supply * power * SUPPLY_LOCK_TARGET /
    max (net.power : ℚ) net.power_baseline
  storage + consensus

/-- NetworkState.power_for_initial_pledge of src/shortfall/network.py:
int((power // SECTOR_SIZE) * SECTOR_SIZE) is the floor to a sector multiple. -/
def power_for_initial_pledge (g : Globals) (net : NetworkState) (pledge : ℚ) : ℤ :=
  let rewards := projected_reward net.epoch_reward g.INITIAL_PLEDGE_PROJECTION_PERIOD
    g.REWARD_DECAY
  let power := pledge * net.power / (rewards + net.circulating_supply * SUPPLY_LOCK_TARGET)
  ⌊power / (g.SECTOR_SIZE : ℚ)⌋ * g.SECTOR_SIZE

/-- NetworkState.fee_for_token_lease of src/shortfall/network.py. -/
def fee_for_token_lease (g : Globals) (net : NetworkState) (amount : ℚ)
    (duration : ℕ) : ℚ :=
  amount * net.token_lease_fee * duration / (g.YEAR : ℚ)

/-- Fraction of earned rewards immediately available (miners/base.py). -/
def AVAILABLE_REWARD_SHARE : ℚ := 1/4

/-- Interval between vesting chunks (miners/base.py). -/
def VESTING_INTERVAL : ℕ := 2800

/-- Number of intervals over which vesting occurs (miners/base.py). -/
def VESTING_PERIOD_INTERVALS : ℕ := 180

/-- Miner state of src/shortfall/miners/.  Python models the variants as
subclasses of BaseMinerState; the embedding uses one record holding the
union of the fields, with each variant's operations only touching its own
fields: pledge_required and repayment_take_rate belong to the
ratchet-repayment variant, fee_pending to the burn variant. -/
structure MinerState where
  power : ℤ
  balance : ℚ
  lease : ℚ
  pledge_locked : ℚ
  vesting_locked : ℚ
  vesting_table : VestTable
  reward_earned : ℚ
  fee_burned : ℚ
  lease_fee_accrued : ℚ
  epochs : ℕ
  pledge_epochs : ℚ
  expirations : ExpTable
  pledge_required : ℚ
  repayment_take_rate : ℚ
  fee_pending : ℚ
deriving DecidableEq, Repr

/-- BaseMinerState.__init__(balance), with the subclass extension fields at
their subclass initial values (0). -/
def MinerState.init (balance : ℚ) : MinerState :=
  { power := 0, balance := balance, lease := 0, pledge_locked := 0
    vesting_locked := 0, vesting_table := [], reward_earned := 0
    fee_burned := 0, lease_fee_accrued := 0, epochs := 0, pledge_epochs := 0
    expirations := [], pledge_required := 0, repayment_take_rate := 0
    fee_pending := 0 }

/-- BaseMinerState.available_balance. -/
def available_balance (s : MinerState) : ℚ :=
  s.balance - (s.pledge_locked + s.vesting_locked)

/-- BaseMinerState._earn_reward. -/
def earn_reward (v : ℚ) (s : MinerState) : Except Err MinerState :=
  if 0 ≤ v then
    .ok { s with balance := s.balance + v, reward_earned := s.reward_earned + v }
  else .error .assertFail

/-- BaseMinerState._burn_fee. -/
def burn_fee (v : ℚ) (s : MinerState) : Except Err MinerState :=
  if 0 ≤ v ∧ v ≤ available_balance s then
    .ok { s with balance := s.balance - v, fee_burned := s.fee_burned + v }
  else .error .assertFail

/-- BaseMinerState._lease. -/
def lease_tokens (v : ℚ) (s : MinerState) : Except Err MinerState :=
  if 0 ≤ v then
    .ok { s with balance := s.balance + v, lease := s.lease + v }
  else .error .assertFail

/-- BaseMinerState._repay. -/
def repay (v : ℚ) (s : MinerState) : Except Err MinerState :=
  if 0 ≤ v ∧ v ≤ s.lease ∧ v ≤ available_balance s then
    .ok { s with balance := s.balance - v, lease := s.lease - v }
  else .error .assertFail

/-- Common tail of every receive_reward: self._repay(min(self.lease,
self.available_balance())). -/
def repay_lease (s : MinerState) : Except Err MinerState :=
  repay (min s.lease (available_balance s)) s

/-- BaseMinerState._accrue_lease_fee. -/
def accrue_lease_fee (v : ℚ) (s : MinerState) : Except Err MinerState :=
  if 0 ≤ v then
    .ok { s with lease := s.lease + v, lease_fee_accrued := s.lease_fee_accrued + v }
  else .error .assertFail

/-- While-loop body of BaseMinerState._vest_reward, spreading the vesting
amount over the vesting table in chunks of each_vest.  The loop is embedded
with a fuel argument; in the exact arithmetic of the source the remaining
amount is exactly VESTING_PERIOD_INTERVALS * each_vest, so the loop runs at
most VESTING_PERIOD_INTERVALS + 1 times and the fuel passed below is never
exhausted. -/
def vest_loop : ℕ → ℚ → ℚ → ℕ → VestTable → VestTable
  | 0, _, _, _, tbl => tbl
  | fuel + 1, each_vest, vesting_reward, e, tbl =>
    if 0 < vesting_reward then
      let vest_amount := min each_vest vesting_reward
      vest_loop fuel each_vest (vesting_reward - vest_amount) (e + VESTING_INTERVAL)
        (vestAdd e vest_amount tbl)
    else tbl

/-- BaseMinerState._vest_reward.  The Python function also returns the
immediately available share; the caller ignores it, so it is dropped here. -/
def vest_reward (epoch : ℕ) (v : ℚ) (s : MinerState) : Except Err MinerState :=
  if 0 ≤ v then
    let available_reward := v * AVAILABLE_REWARD_SHARE
    let vesting_reward := v - available_reward
    let each_vest := vesting_reward / (VESTING_PERIOD_INTERVALS : ℚ)
    let e := (epoch / VESTING_INTERVAL) * VESTING_INTERVAL + VESTING_INTERVAL
    .ok { s with
      vesting_locked := s.vesting_locked + vesting_reward
      vesting_table := vest_loop (VESTING_PERIOD_INTERVALS + 1) each_vest
        vesting_reward e s.vesting_table }
  else .error .assertFail

/-- BaseMinerState.handle_vest. -/
def handle_vest (vested : ℚ) (s : MinerState) : MinerState :=
  { s with vesting_locked := s.vesting_locked - vested }

/-- BaseMinerState.handle_epoch, parameterised by the dynamically dispatched
self.handle_expiration of the concrete variant: accrue the lease fee, count
pledge epochs, destructively pop and apply this epoch's expirations, then
destructively pop and apply this epoch's vesting. -/
def handle_epoch_with (g : Globals) (expire : SectorBunch → MinerState → MinerState)
    (net : NetworkState) (s : MinerState) : Except Err MinerState :=
  match accrue_lease_fee (fee_for_token_lease g net s.lease 1) s with
  | .error e => .error e
  | .ok s1 =>
    let s2 := { s1 with epochs := s1.epochs + 1,
                        pledge_epochs := s1.pledge_epochs + s1.pledge_locked }
    let expiring_now := expGet net.epoch s2.expirations
    let s3 := { s2 with expirations := expDrop net.epoch s2.expirations }
    let s4 := expiring_now.foldl (fun st sb => expire sb st) s3
    let vesting_now := vestGet net.epoch s4.vesting_table
    let s5 := { s4 with vesting_table := vestDrop net.epoch s4.vesting_table }
    if 0 < vesting_now then .ok (handle_vest vesting_now s5) else .ok s5

namespace Base

/-- BaseMinerState.activate_sectors: the lock must be at least the pledge
requirement (float("inf") compares above every requirement) and is clamped
down to it; a smaller lock raises.  Any deficit of available balance is
leased. -/
def activate_sectors (g : Globals) (net : NetworkState) (power : ℤ) (duration : ℕ)
    (lock : Lock) (s : MinerState) : Except Err (MinerState × ℤ × ℚ) :=
  if power % g.SECTOR_SIZE = 0 then
    let pledge_requirement := initial_pledge_for_power g net power
    let lockRes : Except Err ℚ :=
      match lock with
      | .inf => .ok pledge_requirement
      | .fin v => if pledge_requirement ≤ v then .ok pledge_requirement
                  else .error .invalidLock
    match lockRes with
    | .error e => .error e
    | .ok lockV =>
      match lease_tokens (max (lockV - available_balance s) 0) s with
      | .error e => .error e
      | .ok s1 =>
        let s2 := { s1 with
          power := s1.power + power
          pledge_locked := s1.pledge_locked + lockV
          expirations := expPush (net.epoch + duration) ⟨power, pledge_requirement⟩
            s1.expirations }
        .ok (s2, power, lockV)
  else .error .assertFail

/-- BaseMinerState.receive_reward: earn, vest, then repay the lease
opportunistically. -/
def receive_reward (net : NetworkState) (reward : ℚ) (s : MinerState) :
    Except Err MinerState :=
  match earn_reward reward s with
  | .error e => .error e
  | .ok s1 =>
    match vest_reward net.epoch reward s1 with
    | .error e => .error e
    | .ok s2 => repay_lease s2

/-- BaseMinerState.handle_expiration. -/
def handle_expiration (sectors : SectorBunch) (s : MinerState) : MinerState :=
  { s with power := s.power - sectors.power
           pledge_locked := s.pledge_locked - sectors.pledge }

/-- BaseMinerState.handle_epoch with the base variant's expiration handler. -/
def handle_epoch (g : Globals) (net : NetworkState) (s : MinerState) :
    Except Err MinerState :=
  handle_epoch_with g handle_expiration net s

end Base

namespace Burn

/-- Policy constants of BurnShortfallMinerState (constructor parameters).
The take-rate exponent only occurs inside the float power
shortfall_fraction ** exponent, which is embedded as the function argument
powf of receive_reward, so it is not stored here. -/
structure Cfg where
  max_shortfall_fraction : ℚ
deriving DecidableEq, Repr

/-- BurnShortfallMinerState.activate_sectors: lock 0 selects the minimum
pledge (requirement scaled by 1 - max_shortfall_fraction), a lock above the
requirement is clamped down, a finite nonzero lock below the minimum raises.
Only the locked amount is pledged; the shortfall becomes fee_pending, and
the scheduled bunch records the locked amount. -/
def activate_sectors (g : Globals) (cfg : Cfg) (net : NetworkState) (power : ℤ)
    (duration : ℕ) (lock : Lock) (s : MinerState) : Except Err (MinerState × ℤ × ℚ) :=
  if power % g.SECTOR_SIZE = 0 then
    let pledge_requirement := initial_pledge_for_power g net power
    let minimum_pledge := pledge_requirement * (1 - cfg.max_shortfall_fraction)
    let lockRes : Except Err ℚ :=
      match lock with
      | .inf => .ok pledge_requirement
      | .fin v =>
        if v = 0 then .ok minimum_pledge
        else if pledge_requirement < v then .ok pledge_requirement
        else if v < minimum_pledge then .error .invalidLock
        else .ok v
    match lockRes with
    | .error e => .error e
    | .ok lockV =>
      match lease_tokens (max (lockV - available_balance s) 0) s with
      | .error e => .error e
      | .ok s1 =>
        let s2 := { s1 with
          power := s1.power + power
          pledge_locked := s1.pledge_locked + lockV
          fee_pending := s1.fee_pending + (pledge_requirement - lockV)
          expirations := expPush (net.epoch + duration) ⟨power, lockV⟩ s1.expirations }
        .ok (s2, power, lockV)
  else .error .assertFail

/-- Base burn rate of BurnShortfallMinerState.receive_reward. -/
def BASE_BURN_RATE : ℚ := 1/100

/-- BurnShortfallMinerState.receive_reward.  powf embeds the float power
x ** shortfall_take_rate_exponent. -/
def receive_reward (powf : ℚ → ℚ) (net : NetworkState) (reward : ℚ)
    (s : MinerState) : Except Err MinerState :=
  match earn_reward reward s with
  | .error e => .error e
  | .ok s1 =>
    let step : Except Err MinerState :=
      if 0 < s1.fee_pending then
        let collateral_target := s1.pledge_locked + s1.fee_pending
        let shortfall_fraction := s1.fee_pending / collateral_target
        let fee_take_rate := min (BASE_BURN_RATE + powf shortfall_fraction) 1
        if 0 ≤ fee_take_rate then
          if fee_take_rate ≤ 1 then
            if 0 < fee_take_rate then
              let fee_amount := min (reward * fee_take_rate) s1.fee_pending
              match burn_fee fee_amount s1 with
              | .error e => .error e
              | .ok s2 => .ok { s2 with fee_pending := s2.fee_pending - fee_amount }
            else .ok s1
          else .error .assertFail
        else .error .assertFail
      else .ok s1
    match step with
    | .error e => .error e
    | .ok s3 => repay_lease s3

/-- BurnShortfallMinerState.handle_expiration: forgive a share of the pending
fee proportional to the remaining power, then release the bunch's recorded
pledge. -/
def handle_expiration (sectors : SectorBunch) (s : MinerState) : MinerState :=
  let remaining_power_frac := ((s.power - sectors.power : ℤ) : ℚ) / (s.power : ℚ)
  { s with
    fee_pending := s.fee_pending * remaining_power_frac
    power := s.power - sectors.power
    pledge_locked := s.pledge_locked - sectors.pledge }

/-- Inherited BaseMinerState.handle_epoch with the burn variant's expiration
handler. -/
def handle_epoch (g : Globals) (net : NetworkState) (s : MinerState) :
    Except Err MinerState :=
  handle_epoch_with g handle_expiration net s

end Burn

namespace Ratchet

/-- Policy constants of RepayRatchetShortfallMinerState (constructor
parameters). -/
structure Cfg where
  max_repayment_term : ℕ
  max_fee_reward_fraction : ℚ
  reward_projection_decay : ℚ
deriving DecidableEq, Repr

/-- Derived field self._max_repayment_reward_fraction = 1 -
max_fee_reward_fraction, set in __init__. -/
def Cfg.max_repayment_reward_fraction (cfg : Cfg) : ℚ :=
  1 - cfg.max_fee_reward_fraction

/-- RepayRatchetShortfallMinerState.shortfall_fraction: current shortfall as
a fraction of the maximum allowed, clamped above at 1. -/
def shortfall_fraction (cfg : Cfg) (net : NetworkState) (s : MinerState) : ℚ :=
  let max_shortfall := cfg.max_repayment_reward_fraction *
    expected_reward_for_power net s.power cfg.max_repayment_term
      cfg.reward_projection_decay
  let actual_shortfall := s.pledge_required - s.pledge_locked
  let frac := if 0 < max_shortfall then actual_shortfall / max_shortfall else 0
  min frac 1

/-- RepayRatchetShortfallMinerState.activate_sectors: lock 0 selects the
minimum pledge (requirement minus the allowed incremental shortfall), a lock
above the requirement is clamped down, a finite nonzero lock below the
minimum raises.  When the batch takes a shortfall, the repayment take rate
needed to retire the total shortfall within the term is computed from the
miner's total power and ratcheted upward, raising if it would exceed the
maximum. -/
def activate_sectors (g : Globals) (cfg : Cfg) (net : NetworkState) (power : ℤ)
    (duration : ℕ) (lock : Lock) (s : MinerState) : Except Err (MinerState × ℤ × ℚ) :=
  if power % g.SECTOR_SIZE = 0 then
    let pledge_requirement := initial_pledge_for_power g net power
    let incremental_shortfall := cfg.max_repayment_reward_fraction *
      expected_reward_for_power net power (min duration cfg.max_repayment_term)
        cfg.reward_projection_decay
    let minimum_pledge := pledge_requirement - incremental_shortfall
    let lockRes : Except Err ℚ :=
      match lock with
      | .inf => .ok pledge_requirement
      | .fin v =>
        if v = 0 then .ok minimum_pledge
        else if pledge_requirement < v then .ok pledge_requirement
        else if v < minimum_pledge then .error .invalidLock
        else .ok v
    match lockRes with
    | .error e => .error e
    | .ok lockV =>
      match lease_tokens (max (lockV - available_balance s) 0) s with
      | .error e => .error e
      | .ok s1 =>
        let s2 := { s1 with
          power := s1.power + power
          pledge_required := s1.pledge_required + pledge_requirement
          pledge_locked := s1.pledge_locked + lockV
          expirations := expPush (net.epoch + duration) ⟨power, pledge_requirement⟩
            s1.expirations }
        if lockV < pledge_requirement then
          let current_shortfall := s2.pledge_required - s2.pledge_locked
          let expected_rewards := expected_reward_for_power net s2.power
            cfg.max_repayment_term cfg.reward_projection_decay
          let repayment_take_rate := current_shortfall / expected_rewards
          if cfg.max_repayment_reward_fraction < repayment_take_rate then
            .error .takeRateExceeded
          else
            let newRate := max s2.repayment_take_rate repayment_take_rate
            .ok ({ s2 with repayment_take_rate := newRate }, power, lockV)
        else .ok (s2, power, lockV)
  else .error .assertFail

/-- RepayRatchetShortfallMinerState.receive_reward: earn the reward (vesting
is ignored), burn a fee proportional to the shortfall fraction, lock a
repayment at the persisted take rate, capping it at the outstanding
shortfall and resetting the take rate to 0 when the cap binds, then repay
the lease. -/
def receive_reward (cfg : Cfg) (net : NetworkState) (reward : ℚ) (s : MinerState) :
    Except Err MinerState :=
  match earn_reward reward s with
  | .error e => .error e
  | .ok s1 =>
    if cfg.max_fee_reward_fraction + cfg.max_repayment_reward_fraction ≤ 1 then
      let shortfall_frac := shortfall_fraction cfg net s1
      let step : Except Err MinerState :=
        if 0 < shortfall_frac then
          let fee_take_rate := shortfall_frac * cfg.max_fee_reward_fraction
          let fee_amount := reward * fee_take_rate
          match burn_fee fee_amount s1 with
          | .error e => .error e
          | .ok s2 =>
            let shortfall := s2.pledge_required - s2.pledge_locked
            let uncapped := reward * s2.repayment_take_rate
            let repayment_amount := if shortfall ≤ uncapped then shortfall else uncapped
            let s3 := if shortfall ≤ uncapped
              then { s2 with repayment_take_rate := 0 } else s2
            let s4 := { s3 with pledge_locked := s3.pledge_locked + repayment_amount }
            if fee_amount + repayment_amount ≤ reward then .ok s4
            else .error .assertFail
        else .ok s1
      match step with
      | .error e => .error e
      | .ok s5 => repay_lease s5
    else .error .assertFail

/-- RepayRatchetShortfallMinerState.handle_expiration: release pledge in
proportion to the miner's aggregate satisfaction ratio and drop the bunch's
full requirement from pledge_required. -/
def handle_expiration (sectors : SectorBunch) (s : MinerState) : MinerState :=
  let pledge_satisfaction := s.pledge_locked / s.pledge_required
  let pledge_to_release := pledge_satisfaction * sectors.pledge
  { s with
    power := s.power - sectors.power
    pledge_required := s.pledge_required - sectors.pledge
    pledge_locked := s.pledge_locked - pledge_to_release }

/-- Inherited BaseMinerState.handle_epoch with the ratchet variant's
expiration handler. -/
def handle_epoch (g : Globals) (net : NetworkState) (s : MinerState) :
    Except Err MinerState :=
  handle_epoch_with g handle_expiration net s

end Ratchet

end Shortfall

namespace Toplevel

/-- NetworkState of the top-level src/network.py.  Its __init__ always sets
power_baseline to 0, but the field is kept. -/
structure NetworkState where
  epoch : ℕ
  power : ℤ
  power_baseline : ℚ
  circulating_supply : ℚ
  epoch_reward : ℚ
  token_lease_fee : ℚ
deriving DecidableEq, Repr

/-- NetworkState.projected_reward of src/network.py: the decay rate is the
module constant REWARD_DECAY. -/
def projected_reward (g : Globals) (epoch_reward : ℚ) (duration : ℕ) : ℚ :=
  epoch_reward * sum_over_exponential_decay duration g.REWARD_DECAY

/-- NetworkState.expected_reward_for_power of src/network.py. -/
def expected_reward_for_power (g : Globals) (net : NetworkState) (power : ℤ)
    (duration : ℕ) : ℚ :=
  if net.power ≤ 0 then projected_reward g net.epoch_reward duration
  else projected_reward g (net.epoch_reward * power / net.power) duration

/-- NetworkState.initial_pledge_for_power of src/network.py. -/
def initial_pledge_for_power (g : Globals) (net : NetworkState) (power : ℤ) : ℚ :=
  let storage := expected_reward_for_power g net power g.INITIAL_PLEDGE_PROJECTION_PERIOD
  let consensus := net.circulating_supply * power * SUPPLY_LOCK_TARGET /
    max (net.power : ℚ) net.power_baseline
  storage + consensus

/-- NetworkState.fee_for_token_lease of src/network.py. -/
def fee_for_token_lease (g : Globals) (net : NetworkState) (amount : ℚ)
    (duration : ℕ) : ℚ :=
  amount * net.token_lease_fee * duration / (g.YEAR : ℚ)

/-- Miner state of the top-level src/miners/ tree (no vesting fields);
pledge_required is the extension field of the proportional-repayment
subclass. -/
structure MinerState where
  power : ℤ
  balance : ℚ
  lease : ℚ
  pledge_locked : ℚ
  reward_earned : ℚ
  fee_burned : ℚ
  lease_fee_accrued : ℚ
  expirations : ExpTable
  pledge_required : ℚ
deriving DecidableEq, Repr

/-- RepayProportionalShortfallMinerState.__init__(balance). -/
def MinerState.init (balance : ℚ) : MinerState :=
  { power := 0, balance := balance, lease := 0, pledge_locked := 0
    reward_earned := 0, fee_burned := 0, lease_fee_accrued := 0
    expirations := [], pledge_required := 0 }

/-- BaseMinerState.available_balance of src/miners/base.py. -/
def available_balance (s : MinerState) : ℚ :=
  s.balance - s.pledge_locked

/-- BaseMinerState._earn_reward of src/miners/base.py. -/
def earn_reward (v : ℚ) (s : MinerState) : Except Err MinerState :=
  if 0 ≤ v then
    .ok { s with balance := s.balance + v, reward_earned := s.reward_earned + v }
  else .error .assertFail

/-- BaseMinerState._burn_fee of src/miners/base.py. -/
def burn_fee (v : ℚ) (s : MinerState) : Except Err MinerState :=
  if 0 ≤ v ∧ v ≤ available_balance s then
    .ok { s with balance := s.balance - v, fee_burned := s.fee_burned + v }
  else .error .assertFail

/-- BaseMinerState._lease of src/miners/base.py. -/
def lease_tokens (v : ℚ) (s : MinerState) : Except Err MinerState :=
  if 0 ≤ v then
    .ok { s with balance := s.balance + v, lease := s.lease + v }
  else .error .assertFail

/-- BaseMinerState._repay of src/miners/base.py. -/
def repay (v : ℚ) (s : MinerState) : Except Err MinerState :=
  if 0 ≤ v ∧ v ≤ s.lease ∧ v ≤ available_balance s then
    .ok { s with balance := s.balance - v, lease := s.lease - v }
  else .error .assertFail

/-- Common tail of receive_reward in src/miners/: self._repay(min(self.lease,
self.available_balance())). -/
def repay_lease (s : MinerState) : Except Err MinerState :=
  repay (min s.lease (available_balance s)) s

/-- BaseMinerState._accrue_lease_fee of src/miners/base.py. -/
def accrue_lease_fee (v : ℚ) (s : MinerState) : Except Err MinerState :=
  if 0 ≤ v then
    .ok { s with lease := s.lease + v, lease_fee_accrued := s.lease_fee_accrued + v }
  else .error .assertFail

/-- BaseMinerState.handle_epoch of src/miners/base.py, parameterised by the
dispatched handle_expiration: accrue the lease fee, then destructively pop
and apply this epoch's expirations (no vesting in this tree). -/
def handle_epoch_with (g : Globals) (expire : SectorBunch → MinerState → MinerState)
    (net : NetworkState) (s : MinerState) : Except Err MinerState :=
  match accrue_lease_fee (fee_for_token_lease g net s.lease 1) s with
  | .error e => .error e
  | .ok s1 =>
    let expiring_now := expGet net.epoch s1.expirations
    let s2 := { s1 with expirations := expDrop net.epoch s1.expirations }
    .ok (expiring_now.foldl (fun st sb => expire sb st) s2)

namespace Proportional

/-- RepayProportionalShortfallMinerState.MAX_REPAYMENT_TERM = 365 * DAY. -/
def MAX_REPAYMENT_TERM (g : Globals) : ℕ := 365 * g.DAY

/-- RepayProportionalShortfallMinerState.MAX_REPAYMENT_REWARD_FRACTION. -/
def MAX_REPAYMENT_REWARD_FRACTION : ℚ := 3/4

/-- RepayProportionalShortfallMinerState.MAX_FEE_REWARD_FRACTION. -/
def MAX_FEE_REWARD_FRACTION : ℚ := 1/4

/-- RepayProportionalShortfallMinerState.MIN_REPAYMENT_TAKE_FRACTION. -/
def MIN_REPAYMENT_TAKE_FRACTION : ℚ := 1/4

/-- RepayProportionalShortfallMinerState.shortfall_fraction: current
shortfall as a fraction of the maximum allowed, clamped above at 1. -/
def shortfall_fraction (g : Globals) (net : NetworkState) (s : MinerState) : ℚ :=
  let max_shortfall := MAX_REPAYMENT_REWARD_FRACTION *
    expected_reward_for_power g net s.power (MAX_REPAYMENT_TERM g)
  let actual_shortfall := s.pledge_required - s.pledge_locked
  let frac := if 0 < max_shortfall then actual_shortfall / max_shortfall else 0
  min frac 1

/-- RepayProportionalShortfallMinerState.activate_sectors: lock 0 selects
the minimum pledge (requirement minus the allowed incremental shortfall), a
lock above the requirement is clamped down, a finite nonzero lock below the
minimum raises.  After committing, the aggregate-satisfaction sanity check
raises if total locked pledge falls below the miner-wide minimum. -/
def activate_sectors (g : Globals) (net : NetworkState) (power : ℤ) (duration : ℕ)
    (lock : Lock) (s : MinerState) : Except Err (MinerState × ℤ × ℚ) :=
  if power % g.SECTOR_SIZE = 0 then
    let pledge_requirement := initial_pledge_for_power g net power
    let incremental_shortfall := MAX_REPAYMENT_REWARD_FRACTION *
      expected_reward_for_power g net power (min duration (MAX_REPAYMENT_TERM g))
    let minimum_pledge := pledge_requirement - incremental_shortfall
    let lockRes : Except Err ℚ :=
      match lock with
      | .inf => .ok pledge_requirement
      | .fin v =>
        if v = 0 then .ok minimum_pledge
        else if pledge_requirement < v then .ok pledge_requirement
        else if v < minimum_pledge then .error .invalidLock
        else .ok v
    match lockRes with
    | .error e => .error e
    | .ok lockV =>
      match lease_tokens (max (lockV - available_balance s) 0) s with
      | .error e => .error e
      | .ok s1 =>
        let s2 := { s1 with
          power := s1.power + power
          pledge_required := s1.pledge_required + pledge_requirement
          pledge_locked := s1.pledge_locked + lockV
          expirations := expPush (net.epoch + duration) ⟨power, pledge_requirement⟩
            s1.expirations }
        let miner_pledge_requirement := initial_pledge_for_power g net s2.power
        let miner_max_shortfall := MAX_REPAYMENT_REWARD_FRACTION *
          expected_reward_for_power g net s2.power (MAX_REPAYMENT_TERM g)
        let miner_min_satisfaction := miner_pledge_requirement - miner_max_shortfall
        if s2.pledge_locked < miner_min_satisfaction then .error .satisfactionBelowMin
        else .ok (s2, power, lockV)
  else .error .assertFail

/-- RepayProportionalShortfallMinerState.receive_reward: earn the reward
(vesting is ignored), burn a fee proportional to the shortfall fraction,
lock a repayment whose take rate interpolates between the minimum take
fraction and 1 by the square root of the shortfall fraction, then repay the
lease.  sqrt embeds math.sqrt. -/
def receive_reward (g : Globals) (sqrt : ℚ → ℚ) (net : NetworkState) (reward : ℚ)
    (s : MinerState) : Except Err MinerState :=
  match earn_reward reward s with
  | .error e => .error e
  | .ok s1 =>
    if MAX_FEE_REWARD_FRACTION + MAX_REPAYMENT_REWARD_FRACTION ≤ 1 then
      let shortfall_frac := shortfall_fraction g net s1
      let step : Except Err MinerState :=
        if 0 < shortfall_frac then
          let fee_take_rate := shortfall_frac * MAX_FEE_REWARD_FRACTION
          let fee_amount := reward * fee_take_rate
          match burn_fee fee_amount s1 with
          | .error e => .error e
          | .ok s2 =>
            let repayment_take_rate := (MIN_REPAYMENT_TAKE_FRACTION +
              (1 - MIN_REPAYMENT_TAKE_FRACTION) * sqrt shortfall_frac) *
              MAX_REPAYMENT_REWARD_FRACTION
            let repayment_amount := reward * repayment_take_rate
            let s3 := { s2 with pledge_locked := s2.pledge_locked + repayment_amount }
            if fee_amount + repayment_amount ≤ reward then .ok s3
            else .error .assertFail
        else .ok s1
      match step with
      | .error e => .error e
      | .ok s4 => repay_lease s4
    else .error .assertFail

/-- RepayProportionalShortfallMinerState.handle_expiration: release pledge
in proportion to the miner's aggregate satisfaction ratio and drop the
bunch's full requirement from pledge_required. -/
def handle_expiration (sectors : SectorBunch) (s : MinerState) : MinerState :=
  let pledge_satisfaction := s.pledge_locked / s.pledge_required
  let pledge_to_release := pledge_satisfaction * sectors.pledge
  { s with
    power := s.power - sectors.power
    pledge_required := s.pledge_required - sectors.pledge
    pledge_locked := s.pledge_locked - pledge_to_release }

/-- Inherited BaseMinerState.handle_epoch of src/miners/base.py with the
proportional variant's expiration handler. -/
def handle_epoch (g : Globals) (net : NetworkState) (s : MinerState) :
    Except Err MinerState :=
  handle_epoch_with g handle_expiration net s

end Proportional

end Toplevel

/-! Structural lemmas about the embedded operations, shared by the claim
theorems below. -/

/-- Looking up a key just removed by filtering finds nothing. -/
theorem lookup_filter_ne {β : Type} (e : ℕ) (l : List (ℕ × β)) :
    (l.filter (fun kv => kv.1 ≠ e)).lookup e = none := by
  induction l with
  | nil => rfl
  | cons kv rest ih =>
    by_cases hc : kv.1 = e
    · simpa [List.filter_cons, hc] using ih
    · have hb : (e == kv.1) = false := beq_eq_false_iff_ne.mpr (Ne.symm hc)
      simpa [List.filter_cons, hc, List.lookup, hb] using ih

/-- Filtering a key out of a table that does not contain it changes
nothing. -/
theorem filter_ne_of_lookup_none {β : Type} (e : ℕ) (l : List (ℕ × β))
    (h : l.lookup e = none) : l.filter (fun kv => kv.1 ≠ e) = l := by
  induction l with
  | nil => rfl
  | cons kv rest ih =>
    by_cases hc : kv.1 = e
    · simp [List.lookup, hc] at h
    · have hb : (e == kv.1) = false := beq_eq_false_iff_ne.mpr (Ne.symm hc)
      simp only [List.lookup, hb] at h
      rw [List.filter_cons, if_pos (by simpa using hc), ih h]

namespace Shortfall

/-- Vesting loop on a non-positive remaining amount: the while condition is
false at once and the table is unchanged. -/
theorem vest_loop_nonpos (fuel : ℕ) (each vr : ℚ) (e : ℕ) (tbl : VestTable)
    (h : ¬ 0 < vr) : vest_loop fuel each vr e tbl = tbl := by
  cases fuel with
  | zero => rfl
  | succ n =>
    unfold vest_loop
    rw [if_neg h]

/-- Success characterisation of _earn_reward. -/
theorem earn_reward_ok (v : ℚ) (s s' : MinerState) (h : earn_reward v s = .ok s') :
    0 ≤ v ∧ s' = { s with balance := s.balance + v
                          reward_earned := s.reward_earned + v } := by
  unfold earn_reward at h
  split at h
  · rename_i hg
    injection h with h2
    exact ⟨hg, h2.symm⟩
  · exact absurd h (by simp)

/-- Success characterisation of _burn_fee. -/
theorem burn_fee_ok (v : ℚ) (s s' : MinerState) (h : burn_fee v s = .ok s') :
    0 ≤ v ∧ v ≤ available_balance s ∧
      s' = { s with balance := s.balance - v
                    fee_burned := s.fee_burned + v } := by
  unfold burn_fee at h
  split at h
  · rename_i hg
    injection h with h2
    exact ⟨hg.1, hg.2, h2.symm⟩
  · exact absurd h (by simp)

/-- Success characterisation of _lease. -/
theorem lease_tokens_ok (v : ℚ) (s s' : MinerState) (h : lease_tokens v s = .ok s') :
    0 ≤ v ∧ s' = { s with balance := s.balance + v, lease := s.lease + v } := by
  unfold lease_tokens at h
  split at h
  · rename_i hg
    injection h with h2
    exact ⟨hg, h2.symm⟩
  · exact absurd h (by simp)

/-- Success characterisation of _accrue_lease_fee. -/
theorem accrue_lease_fee_ok (v : ℚ) (s s' : MinerState)
    (h : accrue_lease_fee v s = .ok s') :
    0 ≤ v ∧ s' = { s with lease := s.lease + v
                          lease_fee_accrued := s.lease_fee_accrued + v } := by
  unfold accrue_lease_fee at h
  split at h
  · rename_i hg
    injection h with h2
    exact ⟨hg, h2.symm⟩
  · exact absurd h (by simp)

/-- Success characterisation of _vest_reward: the vesting lock grows by the
non-available share and only the vesting table changes besides it. -/
theorem vest_reward_ok (epoch : ℕ) (v : ℚ) (s s' : MinerState)
    (h : vest_reward epoch v s = .ok s') :
    0 ≤ v ∧ ∃ tbl, s' = { s with
      vesting_locked := s.vesting_locked + (v - v * AVAILABLE_REWARD_SHARE)
      vesting_table := tbl } := by
  unfold vest_reward at h
  split at h
  · rename_i hg
    injection h with h2
    exact ⟨hg, _, h2.symm⟩
  · exact absurd h (by simp)

/-- Success characterisation of _repay. -/
theorem repay_ok (v : ℚ) (s s' : MinerState) (h : repay v s = .ok s') :
    0 ≤ v ∧ v ≤ s.lease ∧ v ≤ available_balance s ∧
      s' = { s with balance := s.balance - v, lease := s.lease - v } := by
  unfold repay at h
  split at h
  · rename_i hg
    injection h with h2
    exact ⟨hg.1, hg.2.1, hg.2.2, h2.symm⟩
  · exact absurd h (by simp)

/-- Evaluation of _earn_reward on a non-negative amount. -/
theorem earn_reward_eq (v : ℚ) (s : MinerState) (h : 0 ≤ v) :
    earn_reward v s = .ok { s with balance := s.balance + v
                                   reward_earned := s.reward_earned + v } := by
  unfold earn_reward
  rw [if_pos h]

/-- Evaluation of _burn_fee when its assertions hold. -/
theorem burn_fee_eq (v : ℚ) (s : MinerState) (h0 : 0 ≤ v)
    (h1 : v ≤ available_balance s) :
    burn_fee v s = .ok { s with balance := s.balance - v
                                fee_burned := s.fee_burned + v } := by
  unfold burn_fee
  rw [if_pos ⟨h0, h1⟩]

/-- Evaluation of the lease-repayment tail when the lease and the available
balance are non-negative. -/
theorem repay_lease_eq (s : MinerState) (hl : 0 ≤ s.lease)
    (ha : 0 ≤ available_balance s) :
    repay_lease s = .ok { s with
      balance := s.balance - min s.lease (available_balance s)
      lease := s.lease - min s.lease (available_balance s) } := by
  unfold repay_lease repay
  rw [if_pos ⟨le_min hl ha, min_le_left _ _, min_le_right _ _⟩]

/-- Specification of the lease-repayment tail of receive_reward: on success
the repayment is min(lease, available_balance), so afterwards the lease or
the available balance is exactly 0; the lease never grows, the available
balance ends non-negative, and every other field is untouched. -/
theorem repay_lease_ok (s s' : MinerState) (h : repay_lease s = .ok s') :
    (s'.lease = 0 ∨ available_balance s' = 0) ∧ s'.lease ≤ s.lease ∧
      0 ≤ available_balance s' ∧ s'.power = s.power ∧
      s'.pledge_locked = s.pledge_locked ∧ s'.pledge_required = s.pledge_required ∧
      s'.repayment_take_rate = s.repayment_take_rate ∧
      s'.fee_burned = s.fee_burned ∧ s'.fee_pending = s.fee_pending ∧
      s'.vesting_locked = s.vesting_locked ∧ s'.expirations = s.expirations ∧
      s'.vesting_table = s.vesting_table ∧ s'.reward_earned = s.reward_earned := by
  unfold repay_lease repay at h
  split at h
  · rename_i hg
    obtain ⟨hv0, hvl, hva⟩ := hg
    injection h with h2
    subst h2
    refine ⟨?_, ?_, ?_, rfl, rfl, rfl, rfl, rfl, rfl, rfl, rfl, rfl, rfl⟩
    · rcases le_total s.lease (available_balance s) with hc | hc
      · left
        simp [min_eq_left hc]
      · right
        simp only [available_balance] at *
        rw [min_eq_right hc]
        ring
    · simp only []
      linarith
    · simp only [available_balance] at *
      linarith
  · exact absurd h (by simp)

/-- Success characterisation of Ratchet.activate_sectors: some amount lockV
is locked, the full requirement accrues to pledge_required, the scheduled
bunch records the full requirement, and the persisted repayment take rate
never decreases. -/
theorem Ratchet.activate_ok_ratchet (g : Globals) (cfg : Ratchet.Cfg) (net : NetworkState)
    (power : ℤ) (duration : ℕ) (lock : Lock) (s : MinerState)
    (out : MinerState × ℤ × ℚ)
    (h : Ratchet.activate_sectors g cfg net power duration lock s = .ok out) :
    ∃ lockV rate, s.repayment_take_rate ≤ rate ∧
      out = ({ s with
        balance := s.balance + max (lockV - available_balance s) 0
        lease := s.lease + max (lockV - available_balance s) 0
        power := s.power + power
        pledge_required := s.pledge_required + initial_pledge_for_power g net power
        pledge_locked := s.pledge_locked + lockV
        expirations := expPush (net.epoch + duration)
          ⟨power, initial_pledge_for_power g net power⟩ s.expirations
        repayment_take_rate := rate }, power, lockV) := by
  unfold Ratchet.activate_sectors at h
  split at h
  · dsimp only at h
    cases lock <;> dsimp only at h
    repeat' first
      | (injection h with h2; subst h2;
         obtain ⟨hv, hs1⟩ := lease_tokens_ok _ _ _ (by assumption); subst hs1;
         first
          | exact ⟨_, _, le_max_left _ _, rfl⟩
          | exact ⟨_, _, le_refl _, rfl⟩)
      | split at h
      | simp at h
  · exact absurd h (by simp)

/-- Every successful Base.receive_reward ends in the lease-repayment tail. -/
theorem Base.receive_tail_base (net : NetworkState) (r : ℚ) (s t : MinerState)
    (h : Base.receive_reward net r s = .ok t) :
    ∃ mid, repay_lease mid = .ok t := by
  unfold Base.receive_reward at h
  cases hE : earn_reward r s with
  | error e => rw [hE] at h; exact absurd h (by simp)
  | ok s1 =>
    rw [hE] at h
    dsimp only at h
    repeat' first
      | exact ⟨_, h⟩
      | split at h
      | simp at h

/-- Every successful Burn.receive_reward ends in the lease-repayment tail. -/
theorem Burn.receive_tail_burn (powf : ℚ → ℚ) (net : NetworkState) (r : ℚ)
    (s t : MinerState) (h : Burn.receive_reward powf net r s = .ok t) :
    ∃ mid, repay_lease mid = .ok t := by
  unfold Burn.receive_reward at h
  cases hE : earn_reward r s with
  | error e => rw [hE] at h; exact absurd h (by simp)
  | ok s1 =>
    rw [hE] at h
    dsimp only at h
    repeat' first
      | exact ⟨_, h⟩
      | split at h
      | simp at h

/-- Every successful Ratchet.receive_reward ends in the lease-repayment
tail. -/
theorem Ratchet.receive_tail_ratchet (cfg : Ratchet.Cfg) (net : NetworkState) (r : ℚ)
    (s t : MinerState) (h : Ratchet.receive_reward cfg net r s = .ok t) :
    ∃ mid, repay_lease mid = .ok t := by
  unfold Ratchet.receive_reward at h
  cases hE : earn_reward r s with
  | error e => rw [hE] at h; exact absurd h (by simp)
  | ok s1 =>
    rw [hE] at h
    dsimp only at h
    repeat' first
      | exact ⟨_, h⟩
      | split at h
      | simp at h

/-- Success and fee/repayment bound for Ratchet.receive_reward: from a state
satisfying the ratchet invariants (non-negative available balance and lease,
fee fraction in [0, 1], persisted take rate between 0 and the maximum
repayment fraction), a call with reward ≥ 0 returns normally and burns plus
locks at most the reward. -/
theorem Ratchet.receive_bound_ratchet (cfg : Ratchet.Cfg) (net : NetworkState) (reward : ℚ)
    (s : MinerState) (hr : 0 ≤ reward) (ha : 0 ≤ available_balance s)
    (hl : 0 ≤ s.lease) (hf0 : 0 ≤ cfg.max_fee_reward_fraction)
    (hf1 : cfg.max_fee_reward_fraction ≤ 1) (ht0 : 0 ≤ s.repayment_take_rate)
    (ht1 : s.repayment_take_rate ≤ cfg.max_repayment_reward_fraction) :
    ∃ t, Ratchet.receive_reward cfg net reward s = .ok t ∧
      t.fee_burned - s.fee_burned + (t.pledge_locked - s.pledge_locked) ≤ reward := by
  have hcfg : cfg.max_fee_reward_fraction + cfg.max_repayment_reward_fraction ≤ 1 := by
    unfold Ratchet.Cfg.max_repayment_reward_fraction
    linarith
  have hmr : reward * cfg.max_fee_reward_fraction ≤ reward :=
    mul_le_of_le_one_right hr hf1
  have hx : reward * cfg.max_repayment_reward_fraction =
      reward - reward * cfg.max_fee_reward_fraction := by
    unfold Ratchet.Cfg.max_repayment_reward_fraction
    ring
  have htr : reward * s.repayment_take_rate ≤ reward * cfg.max_repayment_reward_fraction :=
    mul_le_mul_of_nonneg_left ht1 hr
  unfold Ratchet.receive_reward
  rw [earn_reward_eq reward s hr]
  dsimp only
  rw [if_pos hcfg]
  generalize hF : shortfall_fraction cfg net { s with balance := s.balance + reward, reward_earned := s.reward_earned + reward } = F
  have hfr1 : F ≤ 1 := by
    rw [← hF]
    exact min_le_right _ _
  by_cases hfrac : 0 < F
  · rw [if_pos hfrac]
    have hfee0 : 0 ≤ reward * (F * cfg.max_fee_reward_fraction) :=
      mul_nonneg hr (mul_nonneg hfrac.le hf0)
    have hfee_r : reward * (F * cfg.max_fee_reward_fraction) ≤
        reward * cfg.max_fee_reward_fraction :=
      mul_le_mul_of_nonneg_left (mul_le_of_le_one_left hf0 hfr1) hr
    have hfee_le : reward * (F * cfg.max_fee_reward_fraction) ≤
        available_balance { s with balance := s.balance + reward, reward_earned := s.reward_earned + reward } := by
      unfold available_balance at ha ⊢
      dsimp only
      linarith
    rw [burn_fee_eq _ _ hfee0 hfee_le]
    dsimp only
    by_cases hcap : s.pledge_required - s.pledge_locked ≤ reward * s.repayment_take_rate
    · simp only [if_pos hcap]
      have hassert : reward * (F * cfg.max_fee_reward_fraction) +
          (s.pledge_required - s.pledge_locked) ≤ reward := by
        linarith
      simp only [if_pos hassert]
      rw [repay_lease_eq _ (by dsimp only; exact hl)
        (by unfold available_balance at ha ⊢; dsimp only; linarith)]
      refine ⟨_, rfl, ?_⟩
      dsimp only
      linarith
    · simp only [if_neg hcap]
      have hassert : reward * (F * cfg.max_fee_reward_fraction) +
          reward * s.repayment_take_rate ≤ reward := by
        linarith
      simp only [if_pos hassert]
      rw [repay_lease_eq _ (by dsimp only; exact hl)
        (by unfold available_balance at ha ⊢; dsimp only; linarith)]
      refine ⟨_, rfl, ?_⟩
      dsimp only
      linarith
  · rw [if_neg hfrac]
    dsimp only
    rw [repay_lease_eq _ (by dsimp only; exact hl)
      (by unfold available_balance at ha ⊢; dsimp only; linarith)]
    refine ⟨_, rfl, ?_⟩
    dsimp only
    linarith

/-- Success and fee bound for Burn.receive_reward: from a state with
non-negative available balance, lease and pledge, and any non-negativity-
preserving embedding of the take-rate power, a call with reward ≥ 0 returns
normally and burns at most the reward (the burn variant never locks
pledge in receive_reward). -/
theorem Burn.receive_bound_burn (powf : ℚ → ℚ) (net : NetworkState) (reward : ℚ)
    (s : MinerState) (hr : 0 ≤ reward) (ha : 0 ≤ available_balance s)
    (hl : 0 ≤ s.lease) (hpl : 0 ≤ s.pledge_locked)
    (hpf : ∀ x, 0 ≤ x → 0 ≤ powf x) :
    ∃ t, Burn.receive_reward powf net reward s = .ok t ∧
      t.fee_burned - s.fee_burned + (t.pledge_locked - s.pledge_locked) ≤ reward := by
  unfold Burn.receive_reward
  rw [earn_reward_eq reward s hr]
  dsimp only
  by_cases hfp : 0 < s.fee_pending
  · rw [if_pos hfp]
    have hsf : 0 ≤ s.fee_pending / (s.pledge_locked + s.fee_pending) :=
      div_nonneg hfp.le (by linarith)
    have hpw := hpf _ hsf
    generalize hR : min (Burn.BASE_BURN_RATE +
      powf (s.fee_pending / (s.pledge_locked + s.fee_pending))) 1 = R
    have hR0 : 0 < R := by
      rw [← hR]
      exact lt_min (by unfold Burn.BASE_BURN_RATE; linarith) one_pos
    have hR1 : R ≤ 1 := by
      rw [← hR]
      exact min_le_right _ _
    rw [if_pos hR0.le, if_pos hR1, if_pos hR0]
    have hfee0 : 0 ≤ min (reward * R) s.fee_pending :=
      le_min (mul_nonneg hr hR0.le) hfp.le
    have hfee_r : min (reward * R) s.fee_pending ≤ reward :=
      le_trans (min_le_left _ _) (mul_le_of_le_one_right hr hR1)
    have hfee_le : min (reward * R) s.fee_pending ≤
        available_balance { s with balance := s.balance + reward, reward_earned := s.reward_earned + reward } := by
      unfold available_balance at ha ⊢
      dsimp only
      linarith
    rw [burn_fee_eq _ _ hfee0 hfee_le]
    dsimp only
    rw [repay_lease_eq _ (by dsimp only; exact hl)
      (by unfold available_balance at ha ⊢; dsimp only; linarith)]
    refine ⟨_, rfl, ?_⟩
    dsimp only
    linarith
  · rw [if_neg hfp]
    dsimp only
    rw [repay_lease_eq _ (by dsimp only; exact hl)
      (by unfold available_balance at ha ⊢; dsimp only; linarith)]
    refine ⟨_, rfl, ?_⟩
    dsimp only
    linarith

/-- Telescoping of the base expiration fold: power and locked pledge drop by
the sums of the expired bunches. -/
theorem Base.foldl_expire_sum_base (l : List SectorBunch) (s : MinerState) :
    (l.foldl (fun st sb => Base.handle_expiration sb st) s).power =
        s.power - (l.map SectorBunch.power).sum ∧
      (l.foldl (fun st sb => Base.handle_expiration sb st) s).pledge_locked =
        s.pledge_locked - (l.map SectorBunch.pledge).sum := by
  induction l generalizing s with
  | nil => exact ⟨by simp, by simp⟩
  | cons sb rest ih =>
    obtain ⟨h1, h2⟩ := ih (Base.handle_expiration sb s)
    refine ⟨?_, ?_⟩
    · rw [List.foldl_cons, h1]
      dsimp only [Base.handle_expiration]
      rw [List.map_cons, List.sum_cons]
      ring
    · rw [List.foldl_cons, h2]
      dsimp only [Base.handle_expiration]
      rw [List.map_cons, List.sum_cons]
      ring

/-- Telescoping of the burn expiration fold: power and locked pledge drop by
the sums of the expired bunches (the recorded bunch pledge is the locked
amount in this variant). -/
theorem Burn.foldl_expire_sum_burn (l : List SectorBunch) (s : MinerState) :
    (l.foldl (fun st sb => Burn.handle_expiration sb st) s).power =
        s.power - (l.map SectorBunch.power).sum ∧
      (l.foldl (fun st sb => Burn.handle_expiration sb st) s).pledge_locked =
        s.pledge_locked - (l.map SectorBunch.pledge).sum := by
  induction l generalizing s with
  | nil => exact ⟨by simp, by simp⟩
  | cons sb rest ih =>
    obtain ⟨h1, h2⟩ := ih (Burn.handle_expiration sb s)
    refine ⟨?_, ?_⟩
    · rw [List.foldl_cons, h1]
      dsimp only [Burn.handle_expiration]
      rw [List.map_cons, List.sum_cons]
      ring
    · rw [List.foldl_cons, h2]
      dsimp only [Burn.handle_expiration]
      rw [List.map_cons, List.sum_cons]
      ring

/-- Expiring every bunch of the ratchet variant drains power,
pledge_required and pledge_locked to exactly 0, assuming only that power and
pledge_required are the sums over the bunches and that a zero requirement
forces a zero locked pledge.  No sign or ordering constraint relates
pledge_locked to pledge_required: the proportional release telescopes the
satisfaction ratio, so the final bunch releases exactly the remaining
locked pledge. -/
theorem Ratchet.foldl_expire_drain_ratchet (l : List SectorBunch) (s : MinerState)
    (hpow : s.power = (l.map SectorBunch.power).sum)
    (hpr : s.pledge_required = (l.map SectorBunch.pledge).sum)
    (hinv : s.pledge_required = 0 → s.pledge_locked = 0) :
    (l.foldl (fun st sb => Ratchet.handle_expiration sb st) s).power = 0 ∧
      (l.foldl (fun st sb => Ratchet.handle_expiration sb st) s).pledge_required = 0 ∧
      (l.foldl (fun st sb => Ratchet.handle_expiration sb st) s).pledge_locked = 0 := by
  induction l generalizing s with
  | nil =>
    refine ⟨by simpa using hpow, by simpa using hpr, hinv (by simpa using hpr)⟩
  | cons sb rest ih =>
    rw [List.foldl_cons]
    refine ih (Ratchet.handle_expiration sb s) ?_ ?_ ?_
    · dsimp only [Ratchet.handle_expiration]
      rw [hpow, List.map_cons, List.sum_cons]
      ring
    · dsimp only [Ratchet.handle_expiration]
      rw [hpr, List.map_cons, List.sum_cons]
      ring
    · dsimp only [Ratchet.handle_expiration]
      intro h0
      by_cases hpr0 : s.pledge_required = 0
      · rw [hinv hpr0, hpr0]
        simp
      · have hq : sb.pledge = s.pledge_required := by linarith
        rw [hq, div_mul_cancel₀ _ hpr0]
        exact sub_self _

/-- Folding the ratchet expiration handler never touches the repayment take
rate. -/
theorem Ratchet.foldl_expire_take (l : List SectorBunch) (s : MinerState) :
    (l.foldl (fun st sb => Ratchet.handle_expiration sb st) s).repayment_take_rate =
      s.repayment_take_rate := by
  induction l generalizing s with
  | nil => rfl
  | cons sb rest ih =>
    rw [List.foldl_cons, ih]
    rfl

/-- Ratchet.handle_epoch never changes the repayment take rate: lease-fee
accrual, expiration and vesting all leave it alone. -/
theorem Ratchet.handle_epoch_take (g : Globals) (net : NetworkState)
    (s t : MinerState) (h : Ratchet.handle_epoch g net s = .ok t) :
    t.repayment_take_rate = s.repayment_take_rate := by
  unfold Ratchet.handle_epoch handle_epoch_with at h
  cases hA : accrue_lease_fee (fee_for_token_lease g net s.lease 1) s with
  | error e => rw [hA] at h; exact absurd h (by simp)
  | ok s1 =>
    rw [hA] at h
    dsimp only at h
    obtain ⟨_, rfl⟩ := accrue_lease_fee_ok _ _ _ hA
    split at h <;> injection h with h2 <;> subst h2 <;>
      simp [handle_vest, Ratchet.foldl_expire_take]

/-- Ratchet.receive_reward either leaves the repayment take rate in place
(it never lowers it) or resets it to exactly 0, and in the reset case the
repayment locked in that call fully retires the outstanding shortfall:
pledge_locked ends equal to pledge_required. -/
theorem Ratchet.receive_take (cfg : Ratchet.Cfg) (net : NetworkState) (r : ℚ)
    (s t : MinerState) (h : Ratchet.receive_reward cfg net r s = .ok t) :
    s.repayment_take_rate ≤ t.repayment_take_rate ∨
      (t.repayment_take_rate = 0 ∧ t.pledge_locked = t.pledge_required) := by
  unfold Ratchet.receive_reward at h
  cases hE : earn_reward r s with
  | error e => rw [hE] at h; exact absurd h (by simp)
  | ok s1 =>
    rw [hE] at h
    dsimp only at h
    obtain ⟨hr0, rfl⟩ := earn_reward_ok _ _ _ hE
    split at h
    · split at h
      · simp at h
      · rename_i s5 heq
        obtain ⟨-, -, -, -, hpl, hpr, htake, -⟩ := repay_lease_ok _ _ h
        split at heq
        · split at heq
          · simp at heq
          · rename_i s2 heq2
            obtain ⟨-, -, rfl⟩ := burn_fee_ok _ _ _ heq2
            repeat' first
              | (injection heq with heq3; subst heq3)
              | split at heq
              | simp at heq
            · right
              dsimp only at htake hpl hpr
              exact ⟨htake, by rw [hpl, hpr]; ring⟩
            · left
              dsimp only at htake
              exact htake.ge
        · injection heq with heq3
          subst heq3
          left
          rw [htake]
    · simp at h

/-- Folding an expiration handler that preserves the deferred tables
preserves them over any bunch list. -/
theorem foldl_expire_tables (expire : SectorBunch → MinerState → MinerState)
    (hpres : ∀ sb st, (expire sb st).expirations = st.expirations ∧
      (expire sb st).vesting_table = st.vesting_table)
    (l : List SectorBunch) (s : MinerState) :
    (l.foldl (fun st sb => expire sb st) s).expirations = s.expirations ∧
      (l.foldl (fun st sb => expire sb st) s).vesting_table = s.vesting_table := by
  induction l generalizing s with
  | nil => exact ⟨rfl, rfl⟩
  | cons sb rest ih =>
    rw [List.foldl_cons]
    obtain ⟨h1, h2⟩ := ih (expire sb s)
    obtain ⟨h3, h4⟩ := hpres sb s
    exact ⟨h1.trans h3, h2.trans h4⟩

/-- Success characterisation of handle_epoch (for any expiration handler
that leaves the deferred tables alone): this epoch's keys are removed from
both tables, and when the tables hold nothing for this epoch the power,
pledge and vesting lock are untouched. -/
theorem handle_epoch_with_ok (g : Globals)
    (expire : SectorBunch → MinerState → MinerState) (net : NetworkState)
    (s t : MinerState)
    (hpres : ∀ sb st, (expire sb st).expirations = st.expirations ∧
      (expire sb st).vesting_table = st.vesting_table)
    (h : handle_epoch_with g expire net s = .ok t) :
    t.expirations = expDrop net.epoch s.expirations ∧
      t.vesting_table = vestDrop net.epoch s.vesting_table ∧
      (expGet net.epoch s.expirations = [] →
        t.power = s.power ∧ t.pledge_locked = s.pledge_locked ∧
          (vestGet net.epoch s.vesting_table = 0 →
            t.vesting_locked = s.vesting_locked)) := by
  unfold handle_epoch_with at h
  cases hA : accrue_lease_fee (fee_for_token_lease g net s.lease 1) s with
  | error e => rw [hA] at h; exact absurd h (by simp)
  | ok s1 =>
    rw [hA] at h
    dsimp only at h
    obtain ⟨-, rfl⟩ := accrue_lease_fee_ok _ _ _ hA
    obtain ⟨hfe, hfv⟩ := foldl_expire_tables expire hpres
      (expGet net.epoch s.expirations) _
    split at h <;> injection h with h2 <;> subst h2
    · rename_i hv
      refine ⟨?_, ?_, ?_⟩
      · dsimp only [handle_vest]
        rw [hfe]
      · dsimp only [handle_vest]
        rw [hfv]
      · intro hemp
        refine ⟨?_, ?_, ?_⟩
        · dsimp only [handle_vest]
          rw [hemp, List.foldl_nil]
        · dsimp only [handle_vest]
          rw [hemp, List.foldl_nil]
        · intro hveq
          dsimp only at hv
          rw [hemp, List.foldl_nil] at hv
          dsimp only at hv
          rw [hveq] at hv
          exact absurd hv (lt_irrefl 0)
    · refine ⟨?_, ?_, ?_⟩
      · dsimp only
        rw [hfe]
      · dsimp only
        rw [hfv]
      · intro hemp
        refine ⟨?_, ?_, fun _ => ?_⟩
        · dsimp only
          rw [hemp, List.foldl_nil]
        · dsimp only
          rw [hemp, List.foldl_nil]
        · dsimp only
          rw [hemp, List.foldl_nil]

end Shortfall

namespace Toplevel

/-- Success characterisation of _earn_reward in the top-level tree. -/
theorem earn_reward_ok_t (v : ℚ) (s s' : MinerState) (h : earn_reward v s = .ok s') :
    0 ≤ v ∧ s' = { s with balance := s.balance + v
                          reward_earned := s.reward_earned + v } := by
  unfold earn_reward at h
  split at h
  · rename_i hg
    injection h with h2
    exact ⟨hg, h2.symm⟩
  · exact absurd h (by simp)

/-- Success characterisation of _burn_fee in the top-level tree. -/
theorem burn_fee_ok_t (v : ℚ) (s s' : MinerState) (h : burn_fee v s = .ok s') :
    0 ≤ v ∧ v ≤ available_balance s ∧
      s' = { s with balance := s.balance - v
                    fee_burned := s.fee_burned + v } := by
  unfold burn_fee at h
  split at h
  · rename_i hg
    injection h with h2
    exact ⟨hg.1, hg.2, h2.symm⟩
  · exact absurd h (by simp)

/-- Success characterisation of _repay in the top-level tree. -/
theorem repay_ok_t (v : ℚ) (s s' : MinerState) (h : repay v s = .ok s') :
    0 ≤ v ∧ v ≤ s.lease ∧ v ≤ available_balance s ∧
      s' = { s with balance := s.balance - v, lease := s.lease - v } := by
  unfold repay at h
  split at h
  · rename_i hg
    injection h with h2
    exact ⟨hg.1, hg.2.1, hg.2.2, h2.symm⟩
  · exact absurd h (by simp)

/-- Evaluation of _earn_reward in the top-level tree on a non-negative
amount. -/
theorem earn_reward_eq_t (v : ℚ) (s : MinerState) (h : 0 ≤ v) :
    earn_reward v s = .ok { s with balance := s.balance + v
                                   reward_earned := s.reward_earned + v } := by
  unfold earn_reward
  rw [if_pos h]

/-- Evaluation of _burn_fee in the top-level tree when its assertions
hold. -/
theorem burn_fee_eq_t (v : ℚ) (s : MinerState) (h0 : 0 ≤ v)
    (h1 : v ≤ available_balance s) :
    burn_fee v s = .ok { s with balance := s.balance - v
                                fee_burned := s.fee_burned + v } := by
  unfold burn_fee
  rw [if_pos ⟨h0, h1⟩]

/-- Evaluation of the top-level lease-repayment tail when the lease and the
available balance are non-negative. -/
theorem repay_lease_eq_t (s : MinerState) (hl : 0 ≤ s.lease)
    (ha : 0 ≤ available_balance s) :
    repay_lease s = .ok { s with
      balance := s.balance - min s.lease (available_balance s)
      lease := s.lease - min s.lease (available_balance s) } := by
  unfold repay_lease repay
  rw [if_pos ⟨le_min hl ha, min_le_left _ _, min_le_right _ _⟩]

/-- Specification of the lease-repayment tail of receive_reward in the
top-level tree: on success the lease or the available balance is exactly 0,
the lease never grows, the available balance ends non-negative, and every
other field is untouched. -/
theorem repay_lease_ok_t (s s' : MinerState) (h : repay_lease s = .ok s') :
    (s'.lease = 0 ∨ available_balance s' = 0) ∧ s'.lease ≤ s.lease ∧
      0 ≤ available_balance s' ∧ s'.power = s.power ∧
      s'.pledge_locked = s.pledge_locked ∧ s'.pledge_required = s.pledge_required ∧
      s'.fee_burned = s.fee_burned ∧ s'.expirations = s.expirations ∧
      s'.reward_earned = s.reward_earned := by
  unfold repay_lease repay at h
  split at h
  · rename_i hg
    obtain ⟨hv0, hvl, hva⟩ := hg
    injection h with h2
    subst h2
    refine ⟨?_, ?_, ?_, rfl, rfl, rfl, rfl, rfl, rfl⟩
    · rcases le_total s.lease (available_balance s) with hc | hc
      · left
        simp [min_eq_left hc]
      · right
        simp only [available_balance] at *
        rw [min_eq_right hc]
        ring
    · simp only []
      linarith
    · simp only [available_balance] at *
      linarith
  · exact absurd h (by simp)

/-- Every successful Proportional.receive_reward ends in the
lease-repayment tail. -/
theorem Proportional.receive_tail_prop (g : Globals) (sqrt : ℚ → ℚ)
    (net : NetworkState) (r : ℚ) (s t : MinerState)
    (h : Proportional.receive_reward g sqrt net r s = .ok t) :
    ∃ mid, repay_lease mid = .ok t := by
  unfold Proportional.receive_reward at h
  cases hE : earn_reward r s with
  | error e => rw [hE] at h; exact absurd h (by simp)
  | ok s1 =>
    rw [hE] at h
    dsimp only at h
    repeat' first
      | exact ⟨_, h⟩
      | split at h
      | simp at h

/-- Expiring every bunch of the proportional variant drains power,
pledge_required and pledge_locked to exactly 0, assuming only that power and
pledge_required are the sums over the bunches and that a zero requirement
forces a zero locked pledge.  In particular overshoot states, where the
uncapped repayment has pushed pledge_locked above pledge_required, are
covered: each step scales pledge_locked by (pledge_required - pledge) /
pledge_required, so the bunch that exhausts the requirement releases exactly
the remaining locked pledge. -/
theorem Proportional.foldl_expire_drain_prop (l : List SectorBunch) (s : MinerState)
    (hpow : s.power = (l.map SectorBunch.power).sum)
    (hpr : s.pledge_required = (l.map SectorBunch.pledge).sum)
    (hinv : s.pledge_required = 0 → s.pledge_locked = 0) :
    (l.foldl (fun st sb => Proportional.handle_expiration sb st) s).power = 0 ∧
      (l.foldl (fun st sb => Proportional.handle_expiration sb st)
        s).pledge_required = 0 ∧
      (l.foldl (fun st sb => Proportional.handle_expiration sb st)
        s).pledge_locked = 0 := by
  induction l generalizing s with
  | nil =>
    refine ⟨by simpa using hpow, by simpa using hpr, hinv (by simpa using hpr)⟩
  | cons sb rest ih =>
    rw [List.foldl_cons]
    refine ih (Proportional.handle_expiration sb s) ?_ ?_ ?_
    · dsimp only [Proportional.handle_expiration]
      rw [hpow, List.map_cons, List.sum_cons]
      ring
    · dsimp only [Proportional.handle_expiration]
      rw [hpr, List.map_cons, List.sum_cons]
      ring
    · dsimp only [Proportional.handle_expiration]
      intro h0
      by_cases hpr0 : s.pledge_required = 0
      · rw [hinv hpr0, hpr0]
        simp
      · have hq : sb.pledge = s.pledge_required := by linarith
        rw [hq, div_mul_cancel₀ _ hpr0]
        exact sub_self _

/-- Success and fee/repayment bound for Proportional.receive_reward: from a
state with non-negative available balance and lease, and any embedding of
math.sqrt mapping (0, 1] into [0, 1], a call with reward ≥ 0 returns
normally and burns plus locks at most the reward. -/
theorem Proportional.receive_bound_prop (g : Globals) (sqrt : ℚ → ℚ)
    (net : NetworkState) (reward : ℚ) (s : MinerState) (hr : 0 ≤ reward)
    (ha : 0 ≤ available_balance s) (hl : 0 ≤ s.lease)
    (hsq : ∀ x, 0 < x → x ≤ 1 → 0 ≤ sqrt x ∧ sqrt x ≤ 1) :
    ∃ t, Proportional.receive_reward g sqrt net reward s = .ok t ∧
      t.fee_burned - s.fee_burned + (t.pledge_locked - s.pledge_locked) ≤ reward := by
  unfold Proportional.receive_reward
  rw [earn_reward_eq_t reward s hr]
  dsimp only
  rw [if_pos (show MAX_FEE_REWARD_FRACTION + MAX_REPAYMENT_REWARD_FRACTION ≤ 1 by
    unfold MAX_FEE_REWARD_FRACTION MAX_REPAYMENT_REWARD_FRACTION
    norm_num)]
  generalize hF : shortfall_fraction g net { s with balance := s.balance + reward, reward_earned := s.reward_earned + reward } = F
  have hfr1 : F ≤ 1 := by
    rw [← hF]
    exact min_le_right _ _
  by_cases hfrac : 0 < F
  · rw [if_pos hfrac]
    obtain ⟨hsq0, hsq1⟩ := hsq F hfrac hfr1
    have hfee0 : 0 ≤ reward * (F * MAX_FEE_REWARD_FRACTION) := by
      unfold MAX_FEE_REWARD_FRACTION
      positivity
    have hfee_r : reward * (F * MAX_FEE_REWARD_FRACTION) ≤ reward := by
      unfold MAX_FEE_REWARD_FRACTION
      nlinarith
    have hfee_le : reward * (F * MAX_FEE_REWARD_FRACTION) ≤
        available_balance { s with balance := s.balance + reward, reward_earned := s.reward_earned + reward } := by
      unfold available_balance at ha ⊢
      dsimp only
      linarith
    rw [burn_fee_eq_t _ _ hfee0 hfee_le]
    dsimp only
    have hassert : reward * (F * MAX_FEE_REWARD_FRACTION) +
        reward * ((MIN_REPAYMENT_TAKE_FRACTION +
          (1 - MIN_REPAYMENT_TAKE_FRACTION) * sqrt F) *
          MAX_REPAYMENT_REWARD_FRACTION) ≤ reward := by
      unfold MAX_FEE_REWARD_FRACTION MIN_REPAYMENT_TAKE_FRACTION
        MAX_REPAYMENT_REWARD_FRACTION
      have h1 : 0 ≤ reward * (1 - F) := mul_nonneg hr (by linarith)
      have h2 : 0 ≤ reward * (1 - sqrt F) := mul_nonneg hr (by linarith)
      nlinarith
    simp only [if_pos hassert]
    rw [repay_lease_eq_t _ (by dsimp only; exact hl)
      (by unfold available_balance at ha ⊢; dsimp only; linarith)]
    refine ⟨_, rfl, ?_⟩
    dsimp only
    linarith
  · rw [if_neg hfrac]
    dsimp only
    rw [repay_lease_eq_t _ (by dsimp only; exact hl)
      (by unfold available_balance at ha ⊢; dsimp only; linarith)]
    refine ⟨_, rfl, ?_⟩
    dsimp only
    linarith

end Toplevel

/-! Concrete fixtures used to evaluate the definitions at explicit inputs. -/

/-- Test instantiation of the global constants. -/
def gT : Globals :=
  { SECTOR_SIZE := 2, DAY := 1, YEAR := 360, REWARD_DECAY := 1/2, BASELINE_GROWTH := 0 }

/-- Test instantiation with decay rate 1 (rewards stop after the current
epoch), keeping the decayed sums small. -/
def gT1 : Globals :=
  { SECTOR_SIZE := 2, DAY := 1, YEAR := 360, REWARD_DECAY := 1, BASELINE_GROWTH := 0 }

/-- Shortfall-tree network with zero total power (bootstrap case). -/
def netZ : Shortfall.NetworkState :=
  { epoch := 0, power := 0, power_baseline := 0, circulating_supply := 100
    epoch_reward := 1, reward_decay := 1/2, token_lease_fee := 1/5 }

/-- Shortfall-tree network with positive power and zero baseline. -/
def netS : Shortfall.NetworkState :=
  { epoch := 0, power := 1, power_baseline := 0, circulating_supply := 0
    epoch_reward := 0, reward_decay := 1/2, token_lease_fee := 0 }

/-- Top-level-tree network with power 1, unit reward and no consensus
pledge component. -/
def netT : Toplevel.NetworkState :=
  { epoch := 0, power := 1, power_baseline := 0, circulating_supply := 0
    epoch_reward := 1, token_lease_fee := 0 }

/-- Fresh proportional-variant miner with balance 10. -/
def mT0 : Toplevel.MinerState := Toplevel.MinerState.init 10

/-- State of mT0 after activating 2 power for 365 epochs with lock 0 against
netT under gT1: the minimum pledge 1/2 is locked and the full requirement 2
is recorded. -/
def mT1 : Toplevel.MinerState :=
  { power := 2, balance := 10, lease := 0, pledge_locked := 1/2, reward_earned := 0
    fee_burned := 0, lease_fee_accrued := 0
    expirations := [(365, [{ power := 2, pledge := 2 }])], pledge_required := 2 }

/-- State of mT1 after receive_reward 100: the repayment take 3/4 locks 75,
overshooting the outstanding shortfall of 3/2, so pledge_locked ends far
above pledge_required. -/
def mT2 : Toplevel.MinerState :=
  { power := 2, balance := 85, lease := 0, pledge_locked := 151/2, reward_earned := 100
    fee_burned := 25, lease_fee_accrued := 0
    expirations := [(365, [{ power := 2, pledge := 2 }])], pledge_required := 2 }

/-- Shortfall network giving a strictly positive pledge requirement (the
consensus term is 30 per unit of power). -/
def netB : Shortfall.NetworkState :=
  { epoch := 0, power := 1, power_baseline := 0, circulating_supply := 100
    epoch_reward := 0, reward_decay := 1/2, token_lease_fee := 0 }

/-- Top-level-tree network giving a strictly positive pledge requirement
(consensus term 30 per unit of power, no storage term). -/
def netC : Toplevel.NetworkState :=
  { epoch := 0, power := 1, power_baseline := 0, circulating_supply := 100
    epoch_reward := 0, token_lease_fee := 0 }

/-- Burn-variant test policy: maximum shortfall fraction 1/4. -/
def cfgBT : Shortfall.Burn.Cfg := ⟨1/4⟩

/-- Ratchet-variant test policy: term 365, maximum fee fraction 1/4, decay 1/2. -/
def cfgRT : Shortfall.Ratchet.Cfg := ⟨365, 1/4, 1/2⟩

/-- Fresh miner after one empty handle_epoch (only the epoch counter
moves). -/
def mH1 : Shortfall.MinerState := { Shortfall.MinerState.init 0 with epochs := 1 }

/-! Claim C2: the bootstrap branch of expected_reward_for_power. -/

/-- Claim C2, counterexample: with network power 0, epoch reward 1, duration
2 and decay 1/2, expected_reward_for_power returns 7/4 — the geometrically
decayed projection — and not the flat value duration * epoch_reward = 2
asserted by the claim. -/
theorem C2_counterexample :
    Shortfall.expected_reward_for_power netZ 5 2 (1/2) ≠
      (2 : ℚ) * netZ.epoch_reward := by
  norm_num [Shortfall.expected_reward_for_power, Shortfall.projected_reward,
    sum_over_exponential_decay, netZ]

/-- Claim C2 (amended): when the network state's total power is zero or
non-positive, expected_reward_for_power(power, duration, decay) ignores the
power argument and returns the decayed projection of the full epoch reward,
epoch_reward * sum_over_exponential_decay(duration, decay) — not the flat
value duration * epoch_reward. -/
theorem C2_amended (net : Shortfall.NetworkState) (power : ℤ) (duration : ℕ)
    (decay : ℚ) (h : net.power ≤ 0) :
    Shortfall.expected_reward_for_power net power duration decay =
      net.epoch_reward * sum_over_exponential_decay duration decay := by
  unfold Shortfall.expected_reward_for_power Shortfall.projected_reward
  rw [if_pos h]

/-- Claim C2, witness: the amended statement evaluated on the concrete
zero-power network. -/
theorem C2_witness :
    Shortfall.expected_reward_for_power netZ 5 2 (1/2) =
      netZ.epoch_reward * sum_over_exponential_decay 2 (1/2) :=
  C2_amended netZ 5 2 (1/2) (by norm_num [netZ])

/-! Claim C3: range of shortfall_fraction. -/

/-- Helper for the clamped shortfall fraction: the common form
min (if 0 < m then a / m else 0) 1 is at most 1, and is non-negative as soon
as the raw shortfall a is non-negative. -/
theorem clamped_frac_bounds (a m : ℚ) :
    min (if 0 < m then a / m else 0) 1 ≤ 1 ∧
      (0 ≤ a → 0 ≤ min (if 0 < m then a / m else 0) 1) := by
  constructor
  · exact min_le_right _ _
  · intro ha
    rcases lt_or_ge 0 m with hm | hm
    · rw [if_pos hm]
      exact le_min (div_nonneg ha hm.le) zero_le_one
    · rw [if_neg (not_lt.mpr hm)]
      norm_num

/-- Claim C3, counterexample: a reachable proportional-variant miner state
on which shortfall_fraction is negative, outside the claimed interval
[0, 1].  Starting from a fresh miner with balance 10, activating 2 power for
365 epochs with lock 0 locks the minimum pledge 1/2 against a requirement of
2; a subsequent reward of 100 locks a repayment of 75, far beyond the
outstanding shortfall of 3/2, after which the raw shortfall is negative and
shortfall_fraction returns -49.  The square root occurring in the reward
call is applied only at 1, where the embedding (fun x => x) agrees with the
real square root. -/
theorem C3_counterexample :
    Toplevel.Proportional.activate_sectors gT1 netT 2 365 (.fin 0) mT0 =
        .ok (mT1, 2, 1/2) ∧
      Toplevel.Proportional.receive_reward gT1 (fun x => x) netT 100 mT1 = .ok mT2 ∧
      Toplevel.Proportional.shortfall_fraction gT1 netT mT2 < 0 := by
  refine ⟨?_, ?_, ?_⟩
  · norm_num [Toplevel.Proportional.activate_sectors, Toplevel.MinerState.init,
      Toplevel.initial_pledge_for_power, Toplevel.expected_reward_for_power,
      Toplevel.projected_reward, sum_over_exponential_decay, SUPPLY_LOCK_TARGET,
      Toplevel.Proportional.MAX_REPAYMENT_TERM,
      Toplevel.Proportional.MAX_REPAYMENT_REWARD_FRACTION,
      Toplevel.lease_tokens, Toplevel.available_balance, Globals.INITIAL_PLEDGE_PROJECTION_PERIOD,
      expPush, expGet, expDrop, gT1, netT, mT0, mT1]
  · norm_num [Toplevel.Proportional.receive_reward, Toplevel.Proportional.shortfall_fraction,
      Toplevel.expected_reward_for_power, Toplevel.projected_reward,
      sum_over_exponential_decay, Toplevel.Proportional.MAX_REPAYMENT_TERM,
      Toplevel.Proportional.MAX_REPAYMENT_REWARD_FRACTION,
      Toplevel.Proportional.MAX_FEE_REWARD_FRACTION,
      Toplevel.Proportional.MIN_REPAYMENT_TAKE_FRACTION,
      Toplevel.earn_reward, Toplevel.burn_fee, Toplevel.repay_lease, Toplevel.repay,
      Toplevel.available_balance, gT1, netT, mT1, mT2]
  · norm_num [Toplevel.Proportional.shortfall_fraction,
      Toplevel.expected_reward_for_power, Toplevel.projected_reward,
      sum_over_exponential_decay, Toplevel.Proportional.MAX_REPAYMENT_TERM,
      Toplevel.Proportional.MAX_REPAYMENT_REWARD_FRACTION, gT1, netT, mT2]

/-- Claim C3 (amended): for both repayment variants, shortfall_fraction
never exceeds 1, however large the raw shortfall pledge_required -
pledge_locked grows; and it lies in the closed interval [0, 1] whenever that
raw shortfall is non-negative (pledge_locked ≤ pledge_required, which the
ratchet variant maintains).  When over-repayment has made pledge_locked
exceed pledge_required — reachable in the proportional variant — the value
is negative, so the clamping is one-sided. -/
theorem C3_amended (cfg : Shortfall.Ratchet.Cfg) (netR : Shortfall.NetworkState)
    (sR : Shortfall.MinerState) (g : Globals) (netP : Toplevel.NetworkState)
    (sP : Toplevel.MinerState)
    (hR : sR.pledge_locked ≤ sR.pledge_required)
    (hP : sP.pledge_locked ≤ sP.pledge_required) :
    Shortfall.Ratchet.shortfall_fraction cfg netR sR ≤ 1 ∧
      0 ≤ Shortfall.Ratchet.shortfall_fraction cfg netR sR ∧
      Toplevel.Proportional.shortfall_fraction g netP sP ≤ 1 ∧
      0 ≤ Toplevel.Proportional.shortfall_fraction g netP sP := by
  have hR' := clamped_frac_bounds (sR.pledge_required - sR.pledge_locked)
    (cfg.max_repayment_reward_fraction *
      Shortfall.expected_reward_for_power netR sR.power cfg.max_repayment_term
        cfg.reward_projection_decay)
  have hP' := clamped_frac_bounds (sP.pledge_required - sP.pledge_locked)
    (Toplevel.Proportional.MAX_REPAYMENT_REWARD_FRACTION *
      Toplevel.expected_reward_for_power g netP sP.power
        (Toplevel.Proportional.MAX_REPAYMENT_TERM g))
  exact ⟨hR'.1, hR'.2 (by linarith), hP'.1, hP'.2 (by linarith)⟩

/-- Partial-correctness view of an activation result: every successful
outcome locks exactly the stated amount (the call may still fail later, for
example on the ratchet take-rate check or the proportional sanity check). -/
def locks_exactly {σ : Type} (r : Except Err (σ × ℤ × ℚ)) (l : ℚ) : Prop :=
  ∀ out, r = .ok out → out.2.2 = l

/-- Claim C3, witness: the amended bounds evaluated on a concrete ratchet
state and the concrete reachable proportional state mT1 (which still has a
positive raw shortfall). -/
theorem C3_witness :
    Shortfall.Ratchet.shortfall_fraction ⟨365, 1/4, 1/2⟩ netS (.init 5) ≤ 1 ∧
      0 ≤ Shortfall.Ratchet.shortfall_fraction ⟨365, 1/4, 1/2⟩ netS (.init 5) ∧
      Toplevel.Proportional.shortfall_fraction gT1 netT mT1 ≤ 1 ∧
      0 ≤ Toplevel.Proportional.shortfall_fraction gT1 netT mT1 :=
  C3_amended ⟨365, 1/4, 1/2⟩ netS (.init 5) gT1 netT mT1
    (by norm_num [Shortfall.MinerState.init]) (by norm_num [mT1])

/-! Claim C5: expiring every outstanding bunch drains the miner exactly. -/

/-- Claim C5: for every miner variant, applying handle_expiration to every
outstanding SectorBunch — in schedule order or any other — leaves power
exactly 0 and the pledge accounts exactly 0, with no residual, in the exact
arithmetic of the model.  The hypotheses are the bookkeeping invariant that
every reachable state satisfies: power and (per variant) pledge_locked or
pledge_required equal the sums over the outstanding bunches, and for the
repayment variants a zero requirement forces a zero locked pledge.  No
upper bound on pledge_locked is assumed: the proportional variant's
uncapped repayment can push pledge_locked above pledge_required, and such
overshoot states are covered, since each expiration scales pledge_locked by
the remaining-requirement fraction and the final bunch releases exactly
the rest.  For the base and burn variants pledge_locked is drained to
exactly 0; for the repayment variants (ratchet in src/shortfall/,
proportional in the top-level tree) pledge_required reaches exactly 0 and
the proportional release telescopes pledge_locked to exactly 0 as well. -/
theorem C5_expire_all_drains (lB lU lR lP : List SectorBunch)
    (sB sU sR : Shortfall.MinerState) (sP : Toplevel.MinerState)
    (hB1 : sB.power = (lB.map SectorBunch.power).sum)
    (hB2 : sB.pledge_locked = (lB.map SectorBunch.pledge).sum)
    (hU1 : sU.power = (lU.map SectorBunch.power).sum)
    (hU2 : sU.pledge_locked = (lU.map SectorBunch.pledge).sum)
    (hR1 : sR.power = (lR.map SectorBunch.power).sum)
    (hR2 : sR.pledge_required = (lR.map SectorBunch.pledge).sum)
    (hR3 : sR.pledge_required = 0 → sR.pledge_locked = 0)
    (hP1 : sP.power = (lP.map SectorBunch.power).sum)
    (hP2 : sP.pledge_required = (lP.map SectorBunch.pledge).sum)
    (hP3 : sP.pledge_required = 0 → sP.pledge_locked = 0) :
    (lB.foldl (fun st sb => Shortfall.Base.handle_expiration sb st) sB).power = 0 ∧
      (lB.foldl (fun st sb => Shortfall.Base.handle_expiration sb st)
        sB).pledge_locked = 0 ∧
      (lU.foldl (fun st sb => Shortfall.Burn.handle_expiration sb st) sU).power = 0 ∧
      (lU.foldl (fun st sb => Shortfall.Burn.handle_expiration sb st)
        sU).pledge_locked = 0 ∧
      (lR.foldl (fun st sb => Shortfall.Ratchet.handle_expiration sb st) sR).power = 0 ∧
      (lR.foldl (fun st sb => Shortfall.Ratchet.handle_expiration sb st)
        sR).pledge_required = 0 ∧
      (lR.foldl (fun st sb => Shortfall.Ratchet.handle_expiration sb st)
        sR).pledge_locked = 0 ∧
      (lP.foldl (fun st sb => Toplevel.Proportional.handle_expiration sb st)
        sP).power = 0 ∧
      (lP.foldl (fun st sb => Toplevel.Proportional.handle_expiration sb st)
        sP).pledge_required = 0 ∧
      (lP.foldl (fun st sb => Toplevel.Proportional.handle_expiration sb st)
        sP).pledge_locked = 0 := by
  obtain ⟨hb1, hb2⟩ := Shortfall.Base.foldl_expire_sum_base lB sB
  obtain ⟨hu1, hu2⟩ := Shortfall.Burn.foldl_expire_sum_burn lU sU
  obtain ⟨hr1, hr2, hr3⟩ :=
    Shortfall.Ratchet.foldl_expire_drain_ratchet lR sR hR1 hR2 hR3
  obtain ⟨hp1, hp2, hp3⟩ :=
    Toplevel.Proportional.foldl_expire_drain_prop lP sP hP1 hP2 hP3
  refine ⟨?_, ?_, ?_, ?_, hr1, hr2, hr3, hp1, hp2, hp3⟩
  · rw [hb1, hB1]
    ring
  · rw [hb2, hB2]
    ring
  · rw [hu1, hU1]
    ring
  · rw [hu2, hU2]
    ring

/-- Base-variant miner holding two outstanding bunches summing to power 6
and pledge 8. -/
def mC5B : Shortfall.MinerState :=
  { Shortfall.MinerState.init 0 with power := 6, pledge_locked := 8 }

/-- Ratchet-variant miner holding one outstanding bunch of power 2 and
requirement 3, with 2 locked. -/
def mC5R : Shortfall.MinerState :=
  { Shortfall.MinerState.init 0 with power := 2, pledge_required := 3
                                     pledge_locked := 2 }

/-- Proportional-variant miner holding one outstanding bunch of power 2 and
requirement 3, with 5 locked — an overshoot state as the uncapped
proportional repayment produces, with pledge_locked above
pledge_required. -/
def mC5P : Toplevel.MinerState :=
  { Toplevel.MinerState.init 0 with power := 2, pledge_required := 3
                                    pledge_locked := 5 }

/-- Claim C5, witness: concrete expirations drain concrete miners of every
variant to exactly zero power and pledge; the proportional miner starts in
an overshoot state with pledge_locked 5 above pledge_required 3, and the
single expiration still releases everything exactly. -/
theorem C5_witness :
    ([⟨2, 3⟩, ⟨4, 5⟩].foldl (fun st sb => Shortfall.Base.handle_expiration sb st)
        mC5B).power = 0 ∧
      ([⟨2, 3⟩, ⟨4, 5⟩].foldl (fun st sb => Shortfall.Base.handle_expiration sb st)
        mC5B).pledge_locked = 0 ∧
      ([⟨2, 3⟩, ⟨4, 5⟩].foldl (fun st sb => Shortfall.Burn.handle_expiration sb st)
        mC5B).power = 0 ∧
      ([⟨2, 3⟩, ⟨4, 5⟩].foldl (fun st sb => Shortfall.Burn.handle_expiration sb st)
        mC5B).pledge_locked = 0 ∧
      ([⟨2, 3⟩].foldl (fun st sb => Shortfall.Ratchet.handle_expiration sb st)
        mC5R).power = 0 ∧
      ([⟨2, 3⟩].foldl (fun st sb => Shortfall.Ratchet.handle_expiration sb st)
        mC5R).pledge_required = 0 ∧
      ([⟨2, 3⟩].foldl (fun st sb => Shortfall.Ratchet.handle_expiration sb st)
        mC5R).pledge_locked = 0 ∧
      ([⟨2, 3⟩].foldl (fun st sb => Toplevel.Proportional.handle_expiration sb st)
        mC5P).power = 0 ∧
      ([⟨2, 3⟩].foldl (fun st sb => Toplevel.Proportional.handle_expiration sb st)
        mC5P).pledge_required = 0 ∧
      ([⟨2, 3⟩].foldl (fun st sb => Toplevel.Proportional.handle_expiration sb st)
        mC5P).pledge_locked = 0 := by
  refine C5_expire_all_drains [⟨2, 3⟩, ⟨4, 5⟩] [⟨2, 3⟩, ⟨4, 5⟩] [⟨2, 3⟩] [⟨2, 3⟩]
    mC5B mC5B mC5R mC5P ?_ ?_ ?_ ?_ ?_ ?_ ?_ ?_ ?_ ?_
  · norm_num [mC5B, Shortfall.MinerState.init]
  · norm_num [mC5B, Shortfall.MinerState.init]
  · norm_num [mC5B, Shortfall.MinerState.init]
  · norm_num [mC5B, Shortfall.MinerState.init]
  · norm_num [mC5R, Shortfall.MinerState.init]
  · norm_num [mC5R, Shortfall.MinerState.init]
  · norm_num [mC5R, Shortfall.MinerState.init]
  · norm_num [mC5P, Toplevel.MinerState.init]
  · norm_num [mC5P, Toplevel.MinerState.init]
  · norm_num [mC5P, Toplevel.MinerState.init]

/-! Claim C8: pledge/power round trip. -/

/-- Shortfall-tree network whose baseline power exceeds its total power, so
the consensus pledge term is divided by the baseline while
power_for_initial_pledge divides by total power. -/
def netD : Shortfall.NetworkState :=
  { epoch := 0, power := 1, power_baseline := 10, circulating_supply := 100
    epoch_reward := 0, reward_decay := 1/2, token_lease_fee := 0 }

/-- Claim C8, counterexample: with positive network power 1 but baseline 10,
the sector-multiple power 50 maps to pledge 150 and back to power 4, which
is off by 46 — far more than one sector-size unit (2). -/
theorem C8_counterexample :
    (50 : ℤ) % gT.SECTOR_SIZE = 0 ∧ 0 < netD.power ∧
      Shortfall.power_for_initial_pledge gT netD
        (Shortfall.initial_pledge_for_power gT netD 50) = 4 ∧
      gT.SECTOR_SIZE < 50 - (4 : ℤ) := by
  refine ⟨by norm_num [gT], by norm_num [netD], ?_, by norm_num [gT]⟩
  norm_num [Shortfall.power_for_initial_pledge, Shortfall.initial_pledge_for_power,
    Shortfall.expected_reward_for_power, Shortfall.projected_reward,
    sum_over_exponential_decay, SUPPLY_LOCK_TARGET,
    Globals.INITIAL_PLEDGE_PROJECTION_PERIOD, gT, netD]

/-- Claim C8 (amended): for every power that is an integer multiple of the
sector size, against a network state with positive total power whose
baseline does not exceed it (so both directions divide by total power), and
whose pledge-per-power denominator is non-zero,
power_for_initial_pledge(initial_pledge_for_power(p)) recovers p exactly —
in particular to within one sector-size unit.  When the baseline exceeds
total power the two directions use different divisors and the round trip
can be off by arbitrarily many sector units. -/
theorem C8_amended (g : Globals) (net : Shortfall.NetworkState) (k : ℤ)
    (hP : 0 < net.power) (hB : net.power_baseline ≤ (net.power : ℚ))
    (hSS : 0 < g.SECTOR_SIZE)
    (hden : net.epoch_reward *
        sum_over_exponential_decay g.INITIAL_PLEDGE_PROJECTION_PERIOD g.REWARD_DECAY +
        net.circulating_supply * SUPPLY_LOCK_TARGET ≠ 0) :
    Shortfall.power_for_initial_pledge g net
      (Shortfall.initial_pledge_for_power g net (k * g.SECTOR_SIZE)) =
      k * g.SECTOR_SIZE := by
  have hP' : (net.power : ℚ) ≠ 0 := by
    exact_mod_cast hP.ne'
  have hSS' : (g.SECTOR_SIZE : ℚ) ≠ 0 := by
    exact_mod_cast hSS.ne'
  unfold Shortfall.power_for_initial_pledge Shortfall.initial_pledge_for_power
    Shortfall.expected_reward_for_power Shortfall.projected_reward
  rw [if_neg (not_le.mpr hP), max_eq_left hB]
  dsimp only
  have hstep : ∀ x : ℚ, x = (k : ℚ) → ⌊x⌋ * g.SECTOR_SIZE = k * g.SECTOR_SIZE := by
    rintro x rfl
    rw [Int.floor_intCast]
  apply hstep
  push_cast
  field_simp
  ring

/-- Claim C8, witness: the exact round trip evaluated at power 6 = 3 sectors
on a network with baseline 0 below power 1 and denominator 30. -/
theorem C8_witness :
    Shortfall.power_for_initial_pledge gT netB
      (Shortfall.initial_pledge_for_power gT netB (3 * gT.SECTOR_SIZE)) =
      3 * gT.SECTOR_SIZE := by
  refine C8_amended gT netB 3 ?_ ?_ ?_ ?_
  · norm_num [netB]
  · norm_num [netB]
  · norm_num [gT]
  · norm_num [netB, SUPPLY_LOCK_TARGET]

/-! Claim C1: fee plus repayment never exceeds the reward. -/

/-- Claim C1: for every receive_reward(net, reward) call with reward ≥ 0 on
a shortfall miner variant — proportional-repayment, ratchet-repayment or
burn — started from a state satisfying the variant's bookkeeping invariants,
the call returns normally and the increase in fee_burned plus the increase
in pledge_locked during the call is at most reward.  The irrational
primitives are abstracted: sqrt is any embedding of math.sqrt mapping (0, 1]
into [0, 1], powf any non-negativity-preserving embedding of the take-rate
power. -/
theorem C1_reward_bound (cfg : Shortfall.Ratchet.Cfg)
    (netS : Shortfall.NetworkState) (netP : Toplevel.NetworkState) (g : Globals)
    (powf sqrt : ℚ → ℚ) (reward : ℚ)
    (sR sU : Shortfall.MinerState) (sP : Toplevel.MinerState)
    (hr : 0 ≤ reward)
    (haR : 0 ≤ Shortfall.available_balance sR) (hlR : 0 ≤ sR.lease)
    (hf0 : 0 ≤ cfg.max_fee_reward_fraction) (hf1 : cfg.max_fee_reward_fraction ≤ 1)
    (ht0 : 0 ≤ sR.repayment_take_rate)
    (ht1 : sR.repayment_take_rate ≤ cfg.max_repayment_reward_fraction)
    (haU : 0 ≤ Shortfall.available_balance sU) (hlU : 0 ≤ sU.lease)
    (hplU : 0 ≤ sU.pledge_locked)
    (hpf : ∀ x, 0 ≤ x → 0 ≤ powf x)
    (haP : 0 ≤ Toplevel.available_balance sP) (hlP : 0 ≤ sP.lease)
    (hsq : ∀ x, 0 < x → x ≤ 1 → 0 ≤ sqrt x ∧ sqrt x ≤ 1) :
    (∃ t, Shortfall.Ratchet.receive_reward cfg netS reward sR = .ok t ∧
        t.fee_burned - sR.fee_burned + (t.pledge_locked - sR.pledge_locked) ≤
          reward) ∧
      (∃ t, Shortfall.Burn.receive_reward powf netS reward sU = .ok t ∧
        t.fee_burned - sU.fee_burned + (t.pledge_locked - sU.pledge_locked) ≤
          reward) ∧
      (∃ t, Toplevel.Proportional.receive_reward g sqrt netP reward sP = .ok t ∧
        t.fee_burned - sP.fee_burned + (t.pledge_locked - sP.pledge_locked) ≤
          reward) :=
  ⟨Shortfall.Ratchet.receive_bound_ratchet cfg netS reward sR hr haR hlR hf0 hf1 ht0 ht1,
    Shortfall.Burn.receive_bound_burn powf netS reward sU hr haU hlU hplU hpf,
    Toplevel.Proportional.receive_bound_prop g sqrt netP reward sP hr haP hlP hsq⟩

/-- Claim C1, witness: the bound evaluated on fresh zero-balance miners of
all three shortfall variants receiving a zero reward, with the identity
function standing in for the irrational primitives (it satisfies both
abstraction hypotheses). -/
theorem C1_witness :
    (∃ t, Shortfall.Ratchet.receive_reward cfgRT netS 0 (.init 0) = .ok t ∧
        t.fee_burned - (Shortfall.MinerState.init 0).fee_burned +
          (t.pledge_locked - (Shortfall.MinerState.init 0).pledge_locked) ≤ 0) ∧
      (∃ t, Shortfall.Burn.receive_reward (fun x => x) netS 0 (.init 0) = .ok t ∧
        t.fee_burned - (Shortfall.MinerState.init 0).fee_burned +
          (t.pledge_locked - (Shortfall.MinerState.init 0).pledge_locked) ≤ 0) ∧
      (∃ t, Toplevel.Proportional.receive_reward gT1 (fun x => x) netT 0
          (.init 0) = .ok t ∧
        t.fee_burned - (Toplevel.MinerState.init 0).fee_burned +
          (t.pledge_locked - (Toplevel.MinerState.init 0).pledge_locked) ≤ 0) :=
  C1_reward_bound cfgRT netS netT gT1 (fun x => x) (fun x => x) 0
    (.init 0) (.init 0) (.init 0) le_rfl
    (by norm_num [Shortfall.available_balance, Shortfall.MinerState.init])
    (by norm_num [Shortfall.MinerState.init])
    (by norm_num [cfgRT]) (by norm_num [cfgRT])
    (by norm_num [Shortfall.MinerState.init])
    (by norm_num [Shortfall.MinerState.init, cfgRT,
      Shortfall.Ratchet.Cfg.max_repayment_reward_fraction])
    (by norm_num [Shortfall.available_balance, Shortfall.MinerState.init])
    (by norm_num [Shortfall.MinerState.init])
    (by norm_num [Shortfall.MinerState.init])
    (fun x hx => hx)
    (by norm_num [Toplevel.available_balance, Toplevel.MinerState.init])
    (by norm_num [Toplevel.MinerState.init])
    (fun x h1 h2 => ⟨le_of_lt h1, h2⟩)

/-! Claim C10: opportunistic maximal lease repayment. -/

/-- Claim C10: for every miner variant (strict base, burn, ratchet,
proportional), a receive_reward call with reward ≥ 0 that returns normally
from a state with non-negative available balance leaves either the lease or
the available balance at exactly 0: the final repayment step repays exactly
min(lease, available_balance). -/
theorem C10_lease_repayment (netS : Shortfall.NetworkState)
    (netP : Toplevel.NetworkState) (g : Globals) (cfgR : Shortfall.Ratchet.Cfg)
    (powf sqrt : ℚ → ℚ) (reward : ℚ)
    (sB sU sR tB tU tR : Shortfall.MinerState) (sP tP : Toplevel.MinerState)
    (hrw : 0 ≤ reward)
    (haB : 0 ≤ Shortfall.available_balance sB)
    (haU : 0 ≤ Shortfall.available_balance sU)
    (haR : 0 ≤ Shortfall.available_balance sR)
    (haP : 0 ≤ Toplevel.available_balance sP)
    (hB : Shortfall.Base.receive_reward netS reward sB = .ok tB)
    (hU : Shortfall.Burn.receive_reward powf netS reward sU = .ok tU)
    (hR : Shortfall.Ratchet.receive_reward cfgR netS reward sR = .ok tR)
    (hP : Toplevel.Proportional.receive_reward g sqrt netP reward sP = .ok tP) :
    (tB.lease = 0 ∨ Shortfall.available_balance tB = 0) ∧
      (tU.lease = 0 ∨ Shortfall.available_balance tU = 0) ∧
      (tR.lease = 0 ∨ Shortfall.available_balance tR = 0) ∧
      (tP.lease = 0 ∨ Toplevel.available_balance tP = 0) := by
  obtain ⟨mB, hmB⟩ := Shortfall.Base.receive_tail_base netS reward sB tB hB
  obtain ⟨mU, hmU⟩ := Shortfall.Burn.receive_tail_burn powf netS reward sU tU hU
  obtain ⟨mR, hmR⟩ := Shortfall.Ratchet.receive_tail_ratchet cfgR netS reward sR tR hR
  obtain ⟨mP, hmP⟩ := Toplevel.Proportional.receive_tail_prop g sqrt netP reward sP tP hP
  exact ⟨(Shortfall.repay_lease_ok mB tB hmB).1, (Shortfall.repay_lease_ok mU tU hmU).1,
    (Shortfall.repay_lease_ok mR tR hmR).1, (Toplevel.repay_lease_ok_t mP tP hmP).1⟩

set_option maxRecDepth 8000 in
/-- Claim C10, witness: the lease/available-balance alternative evaluated on
fresh zero-balance miners receiving a zero reward, on which every variant's
receive_reward succeeds and leaves the state unchanged. -/
theorem C10_witness :
    ((Shortfall.MinerState.init 0).lease = 0 ∨
        Shortfall.available_balance (.init 0) = 0) ∧
      ((Shortfall.MinerState.init 0).lease = 0 ∨
        Shortfall.available_balance (.init 0) = 0) ∧
      ((Shortfall.MinerState.init 0).lease = 0 ∨
        Shortfall.available_balance (.init 0) = 0) ∧
      ((Toplevel.MinerState.init 0).lease = 0 ∨
        Toplevel.available_balance (.init 0) = 0) := by
  refine C10_lease_repayment netS netT gT1 ⟨365, 1/4, 1/2⟩ (fun x => x) (fun x => x)
    0 (.init 0) (.init 0) (.init 0) (.init 0) (.init 0) (.init 0) (.init 0) (.init 0)
    le_rfl ?_ ?_ ?_ ?_ ?_ ?_ ?_ ?_
  · norm_num [Shortfall.available_balance, Shortfall.MinerState.init]
  · norm_num [Shortfall.available_balance, Shortfall.MinerState.init]
  · norm_num [Shortfall.available_balance, Shortfall.MinerState.init]
  · norm_num [Toplevel.available_balance, Toplevel.MinerState.init]
  · norm_num [Shortfall.Base.receive_reward, Shortfall.earn_reward,
      Shortfall.vest_reward, Shortfall.vest_loop_nonpos, Shortfall.repay_lease,
      Shortfall.repay, Shortfall.available_balance, Shortfall.AVAILABLE_REWARD_SHARE,
      Shortfall.VESTING_PERIOD_INTERVALS, Shortfall.VESTING_INTERVAL,
      Shortfall.MinerState.init, netS]
  · norm_num [Shortfall.Burn.receive_reward, Shortfall.earn_reward,
      Shortfall.burn_fee, Shortfall.Burn.BASE_BURN_RATE, Shortfall.repay_lease,
      Shortfall.repay, Shortfall.available_balance, Shortfall.MinerState.init, netS]
  · norm_num [Shortfall.Ratchet.receive_reward, Shortfall.earn_reward,
      Shortfall.Ratchet.shortfall_fraction,
      Shortfall.Ratchet.Cfg.max_repayment_reward_fraction,
      Shortfall.expected_reward_for_power, Shortfall.projected_reward,
      Shortfall.burn_fee, Shortfall.repay_lease, Shortfall.repay,
      Shortfall.available_balance, Shortfall.MinerState.init, netS]
  · norm_num [Toplevel.Proportional.receive_reward, Toplevel.earn_reward,
      Toplevel.Proportional.shortfall_fraction,
      Toplevel.Proportional.MAX_REPAYMENT_TERM,
      Toplevel.Proportional.MAX_REPAYMENT_REWARD_FRACTION,
      Toplevel.Proportional.MAX_FEE_REWARD_FRACTION,
      Toplevel.expected_reward_for_power, Toplevel.projected_reward,
      Toplevel.repay_lease, Toplevel.repay, Toplevel.available_balance,
      Toplevel.MinerState.init, gT1, netT]

/-! Claim C7: deferred entries are drained at most once. -/

/-- Claim C7: handle_epoch destructively removes the entries keyed at the
current epoch from both deferred tables (expirations and vesting), for any
variant's expiration handler (none of which touches the tables).  After a
first call the tables hold nothing for that epoch, so a second call at the
same epoch applies no expirations and no vesting releases: power,
pledge_locked and vesting_locked are unchanged and the tables are
unchanged. -/
theorem C7_deferred_once (g : Globals)
    (expire : SectorBunch → Shortfall.MinerState → Shortfall.MinerState)
    (net : Shortfall.NetworkState) (s s1 s2 : Shortfall.MinerState)
    (hpres : ∀ sb st, (expire sb st).expirations = st.expirations ∧
      (expire sb st).vesting_table = st.vesting_table)
    (h1 : Shortfall.handle_epoch_with g expire net s = .ok s1)
    (h2 : Shortfall.handle_epoch_with g expire net s1 = .ok s2) :
    s1.expirations.lookup net.epoch = none ∧
      s1.vesting_table.lookup net.epoch = none ∧
      s2.power = s1.power ∧ s2.pledge_locked = s1.pledge_locked ∧
      s2.vesting_locked = s1.vesting_locked ∧
      s2.expirations = s1.expirations ∧ s2.vesting_table = s1.vesting_table := by
  obtain ⟨he1, hv1, -⟩ := Shortfall.handle_epoch_with_ok g expire net s s1 hpres h1
  have hle : s1.expirations.lookup net.epoch = none := by
    rw [he1]
    exact lookup_filter_ne net.epoch s.expirations
  have hlv : s1.vesting_table.lookup net.epoch = none := by
    rw [hv1]
    exact lookup_filter_ne net.epoch s.vesting_table
  obtain ⟨he2, hv2, hcond⟩ := Shortfall.handle_epoch_with_ok g expire net s1 s2 hpres h2
  have hemp : expGet net.epoch s1.expirations = [] := by
    unfold expGet
    rw [hle]
    rfl
  have hveq : vestGet net.epoch s1.vesting_table = 0 := by
    unfold vestGet
    rw [hlv]
    rfl
  obtain ⟨hp, hpl, hvl⟩ := hcond hemp
  refine ⟨hle, hlv, hp, hpl, hvl hveq, ?_, ?_⟩
  · rw [he2]
    exact filter_ne_of_lookup_none net.epoch s1.expirations hle
  · rw [hv2]
    exact filter_ne_of_lookup_none net.epoch s1.vesting_table hlv

/-- Fresh miner after two empty handle_epoch calls at the same epoch. -/
def mH2 : Shortfall.MinerState := { Shortfall.MinerState.init 0 with epochs := 2 }

/-- Claim C7, witness: two handle_epoch calls at epoch 0 on a fresh miner
with the base expiration handler; the second changes none of power, pledge,
vesting or the deferred tables. -/
theorem C7_witness :
    mH1.expirations.lookup netB.epoch = none ∧
      mH1.vesting_table.lookup netB.epoch = none ∧
      mH2.power = mH1.power ∧ mH2.pledge_locked = mH1.pledge_locked ∧
      mH2.vesting_locked = mH1.vesting_locked ∧
      mH2.expirations = mH1.expirations ∧ mH2.vesting_table = mH1.vesting_table := by
  refine C7_deferred_once gT Shortfall.Base.handle_expiration netB (.init 0) mH1 mH2
    (fun sb st => ⟨rfl, rfl⟩) ?_ ?_
  · norm_num [Shortfall.handle_epoch_with, Shortfall.accrue_lease_fee,
      Shortfall.fee_for_token_lease, expGet, expDrop, vestGet, vestDrop,
      Shortfall.handle_vest, Shortfall.MinerState.init, gT, netB, mH1]
  · norm_num [Shortfall.handle_epoch_with, Shortfall.accrue_lease_fee,
      Shortfall.fee_for_token_lease, expGet, expDrop, vestGet, vestDrop,
      Shortfall.handle_vest, Shortfall.MinerState.init, gT, netB, mH1, mH2]

/-! Claim C9: ratchet take-rate monotonicity. -/

/-- Claim C9: for the ratchet variant, no operation lowers
repayment_take_rate from one state to the next — activate_sectors only
ratchets it upward, handle_epoch and handle_expiration leave it unchanged —
except that receive_reward resets it to exactly 0 when the repayment in that
call fully retires the outstanding shortfall, leaving pledge_locked equal to
pledge_required. -/
theorem C9_ratchet_take_monotone (g : Globals) (cfg : Shortfall.Ratchet.Cfg)
    (net : Shortfall.NetworkState) (power : ℤ) (duration : ℕ) (lock : Lock)
    (reward : ℚ) (sA sR sH sE : Shortfall.MinerState)
    (outA : Shortfall.MinerState × ℤ × ℚ) (tR tH : Shortfall.MinerState)
    (sb : SectorBunch)
    (hA : Shortfall.Ratchet.activate_sectors g cfg net power duration lock sA =
      .ok outA)
    (hRc : Shortfall.Ratchet.receive_reward cfg net reward sR = .ok tR)
    (hH : Shortfall.Ratchet.handle_epoch g net sH = .ok tH) :
    sA.repayment_take_rate ≤ outA.1.repayment_take_rate ∧
      (sR.repayment_take_rate ≤ tR.repayment_take_rate ∨
        (tR.repayment_take_rate = 0 ∧ tR.pledge_locked = tR.pledge_required)) ∧
      tH.repayment_take_rate = sH.repayment_take_rate ∧
      (Shortfall.Ratchet.handle_expiration sb sE).repayment_take_rate =
        sE.repayment_take_rate := by
  obtain ⟨lockV, rate, hrate, rfl⟩ := Shortfall.Ratchet.activate_ok_ratchet _ _ _ _ _ _ _ _ hA
  exact ⟨hrate, Shortfall.Ratchet.receive_take _ _ _ _ _ hRc,
    Shortfall.Ratchet.handle_epoch_take _ _ _ _ hH, rfl⟩

/-- Ratchet miner state after activating 2 power for 10 epochs with full
pledge 60 against netB from a fresh zero-balance miner (all 60 leased). -/
def mR1 : Shortfall.MinerState :=
  { power := 2, balance := 60, lease := 60, pledge_locked := 60, vesting_locked := 0
    vesting_table := [], reward_earned := 0, fee_burned := 0, lease_fee_accrued := 0
    epochs := 0, pledge_epochs := 0, expirations := [(10, [⟨2, 60⟩])]
    pledge_required := 60, repayment_take_rate := 0, fee_pending := 0 }

set_option maxRecDepth 8000 in
/-- Claim C9, witness: the take-rate relations evaluated on a concrete
full-pledge activation, a zero reward and an empty epoch. -/
theorem C9_witness :
    (Shortfall.MinerState.init 0).repayment_take_rate ≤
        (mR1, (2 : ℤ), (60 : ℚ)).1.repayment_take_rate ∧
      ((Shortfall.MinerState.init 0).repayment_take_rate ≤
          (Shortfall.MinerState.init 0).repayment_take_rate ∨
        ((Shortfall.MinerState.init 0).repayment_take_rate = 0 ∧
          (Shortfall.MinerState.init 0).pledge_locked =
            (Shortfall.MinerState.init 0).pledge_required)) ∧
      mH1.repayment_take_rate = (Shortfall.MinerState.init 0).repayment_take_rate ∧
      (Shortfall.Ratchet.handle_expiration ⟨0, 0⟩
        (.init 0)).repayment_take_rate =
        (Shortfall.MinerState.init 0).repayment_take_rate := by
  refine C9_ratchet_take_monotone gT cfgRT netB 2 10 .inf 0 (.init 0) (.init 0)
    (.init 0) (.init 0) (mR1, 2, 60) (.init 0) mH1 ⟨0, 0⟩ ?_ ?_ ?_
  · norm_num [Shortfall.Ratchet.activate_sectors, Shortfall.initial_pledge_for_power,
      Shortfall.expected_reward_for_power, Shortfall.projected_reward,
      sum_over_exponential_decay, SUPPLY_LOCK_TARGET,
      Globals.INITIAL_PLEDGE_PROJECTION_PERIOD, Shortfall.lease_tokens,
      Shortfall.available_balance, expPush, expGet, expDrop,
      Shortfall.MinerState.init, gT, netB, mR1]
  · norm_num [Shortfall.Ratchet.receive_reward, Shortfall.earn_reward,
      Shortfall.Ratchet.shortfall_fraction,
      Shortfall.Ratchet.Cfg.max_repayment_reward_fraction,
      Shortfall.expected_reward_for_power, Shortfall.projected_reward,
      Shortfall.burn_fee, Shortfall.repay_lease, Shortfall.repay,
      Shortfall.available_balance, Shortfall.MinerState.init, cfgRT, netB]
  · norm_num [Shortfall.Ratchet.handle_epoch, Shortfall.handle_epoch_with,
      Shortfall.accrue_lease_fee, Shortfall.fee_for_token_lease, expGet, expDrop,
      vestGet, vestDrop, Shortfall.handle_vest, Shortfall.MinerState.init,
      gT, netB, mH1]

/-! Claim C6: lock-argument handling in activate_sectors. -/

/-- Claim C6, counterexample: in the strict base variant a caller-specified
lock of 0 does not select a policy-minimum lock; whenever the pledge
requirement is positive (here 60) it raises the invalid-lock error
instead. -/
theorem C6_counterexample :
    Shortfall.Base.activate_sectors gT netB 2 10 (.fin 0) (.init 0) =
        .error .invalidLock ∧
      0 < Shortfall.initial_pledge_for_power gT netB 2 := by
  constructor
  · norm_num [Shortfall.Base.activate_sectors, Shortfall.initial_pledge_for_power,
      Shortfall.expected_reward_for_power, Shortfall.projected_reward,
      sum_over_exponential_decay, SUPPLY_LOCK_TARGET,
      Globals.INITIAL_PLEDGE_PROJECTION_PERIOD, gT, netB]
  · norm_num [Shortfall.initial_pledge_for_power,
      Shortfall.expected_reward_for_power, Shortfall.projected_reward,
      sum_over_exponential_decay, SUPPLY_LOCK_TARGET,
      Globals.INITIAL_PLEDGE_PROJECTION_PERIOD, gT, netB]

/-- Claim C6 (amended): in activate_sectors of every shortfall policy
variant (burn, ratchet, proportional), a caller-specified lock of 0 selects
the policy-minimum lock, a finite lock above the full pledge requirement is
clamped down to the requirement rather than failing, and a lock that is
non-zero, finite, and below the policy minimum raises an error; in the
strict base variant there is no shortfall allowance, so a lock below the
full requirement — including 0 when the requirement is positive — raises,
and any other lock is clamped down to the requirement. -/
theorem C6_amended (g : Globals) (net : Shortfall.NetworkState)
    (netP : Toplevel.NetworkState) (cfgB : Shortfall.Burn.Cfg)
    (cfgR : Shortfall.Ratchet.Cfg) (power : ℤ) (duration : ℕ)
    (sS sU sR : Shortfall.MinerState) (sP : Toplevel.MinerState)
    (v1 v2 v3 v4 v5 v6 v7 v8 : ℚ)
    (hpow : power % g.SECTOR_SIZE = 0)
    (hpowP : power % g.SECTOR_SIZE = 0)
    (h1 : v1 < Shortfall.initial_pledge_for_power g net power)
    (h2 : Shortfall.initial_pledge_for_power g net power ≤ v2)
    (h3 : v3 ≠ 0) (h4 : Shortfall.initial_pledge_for_power g net power < v3)
    (h5 : v4 ≠ 0)
    (h6 : ¬ Shortfall.initial_pledge_for_power g net power < v4)
    (h7 : v4 < Shortfall.initial_pledge_for_power g net power *
      (1 - cfgB.max_shortfall_fraction))
    (h8 : v5 ≠ 0) (h9 : Shortfall.initial_pledge_for_power g net power < v5)
    (h10 : v6 ≠ 0)
    (h11 : ¬ Shortfall.initial_pledge_for_power g net power < v6)
    (h12 : v6 < Shortfall.initial_pledge_for_power g net power -
      cfgR.max_repayment_reward_fraction * Shortfall.expected_reward_for_power net
        power (min duration cfgR.max_repayment_term) cfgR.reward_projection_decay)
    (h13 : v7 ≠ 0)
    (h14 : Toplevel.initial_pledge_for_power g netP power < v7)
    (h15 : v8 ≠ 0)
    (h16 : ¬ Toplevel.initial_pledge_for_power g netP power < v8)
    (h17 : v8 < Toplevel.initial_pledge_for_power g netP power -
      Toplevel.Proportional.MAX_REPAYMENT_REWARD_FRACTION *
        Toplevel.expected_reward_for_power g netP power
          (min duration (Toplevel.Proportional.MAX_REPAYMENT_TERM g))) :
    Shortfall.Base.activate_sectors g net power duration (.fin v1) sS =
        .error .invalidLock ∧
      (∃ s', Shortfall.Base.activate_sectors g net power duration (.fin v2) sS =
        .ok (s', power, Shortfall.initial_pledge_for_power g net power)) ∧
      (∃ s', Shortfall.Base.activate_sectors g net power duration .inf sS =
        .ok (s', power, Shortfall.initial_pledge_for_power g net power)) ∧
      (∃ s', Shortfall.Burn.activate_sectors g cfgB net power duration (.fin 0) sU =
        .ok (s', power, Shortfall.initial_pledge_for_power g net power *
          (1 - cfgB.max_shortfall_fraction))) ∧
      (∃ s', Shortfall.Burn.activate_sectors g cfgB net power duration (.fin v3) sU =
        .ok (s', power, Shortfall.initial_pledge_for_power g net power)) ∧
      Shortfall.Burn.activate_sectors g cfgB net power duration (.fin v4) sU =
        .error .invalidLock ∧
      locks_exactly (Shortfall.Ratchet.activate_sectors g cfgR net power duration
        (.fin 0) sR)
        (Shortfall.initial_pledge_for_power g net power -
          cfgR.max_repayment_reward_fraction * Shortfall.expected_reward_for_power net
            power (min duration cfgR.max_repayment_term) cfgR.reward_projection_decay) ∧
      (∃ s', Shortfall.Ratchet.activate_sectors g cfgR net power duration (.fin v5) sR =
        .ok (s', power, Shortfall.initial_pledge_for_power g net power)) ∧
      Shortfall.Ratchet.activate_sectors g cfgR net power duration (.fin v6) sR =
        .error .invalidLock ∧
      locks_exactly (Toplevel.Proportional.activate_sectors g netP power duration
        (.fin 0) sP)
        (Toplevel.initial_pledge_for_power g netP power -
          Toplevel.Proportional.MAX_REPAYMENT_REWARD_FRACTION *
            Toplevel.expected_reward_for_power g netP power
              (min duration (Toplevel.Proportional.MAX_REPAYMENT_TERM g))) ∧
      locks_exactly (Toplevel.Proportional.activate_sectors g netP power duration
        (.fin v7) sP) (Toplevel.initial_pledge_for_power g netP power) ∧
      Toplevel.Proportional.activate_sectors g netP power duration (.fin v8) sP =
        .error .invalidLock := by
  refine ⟨?_, ?_, ?_, ?_, ?_, ?_, ?_, ?_, ?_, ?_, ?_, ?_⟩
  · simp [Shortfall.Base.activate_sectors, hpow, not_le.mpr h1]
  · simp [Shortfall.Base.activate_sectors, Shortfall.lease_tokens, hpow, h2,
      le_sup_right]
  · simp [Shortfall.Base.activate_sectors, Shortfall.lease_tokens, hpow,
      le_sup_right]
  · simp [Shortfall.Burn.activate_sectors, Shortfall.lease_tokens, hpow,
      le_sup_right]
  · simp [Shortfall.Burn.activate_sectors, Shortfall.lease_tokens, hpow, h3, h4,
      le_sup_right]
  · simp [Shortfall.Burn.activate_sectors, hpow, h5, h6, h7]
  · intro out hout
    simp [Shortfall.Ratchet.activate_sectors, Shortfall.lease_tokens, hpow,
      le_sup_right] at hout
    split at hout
    · split at hout
      · exact absurd hout (by simp)
      · cases hout; rfl
    · cases hout; rfl
  · simp [Shortfall.Ratchet.activate_sectors, Shortfall.lease_tokens, hpow, h8, h9,
      le_sup_right, lt_self_iff_false]
  · simp [Shortfall.Ratchet.activate_sectors, hpow, h10, h11, h12]
  · intro out hout
    simp [Toplevel.Proportional.activate_sectors, Toplevel.lease_tokens, hpowP,
      le_sup_right] at hout
    split at hout
    · exact absurd hout (by simp)
    · cases hout; rfl
  · intro out hout
    simp [Toplevel.Proportional.activate_sectors, Toplevel.lease_tokens, hpowP,
      h13, h14, le_sup_right] at hout
    split at hout
    · exact absurd hout (by simp)
    · cases hout; rfl
  · simp [Toplevel.Proportional.activate_sectors, hpowP, h15, h16, h17]

/-- Claim C6, witness: the amended lock-handling rules evaluated on concrete
networks where the full requirement is 60, the burn minimum 45 and the
repayment minimums 60. -/
theorem C6_witness :
    Shortfall.Base.activate_sectors gT netB 2 10 (.fin 0) (.init 0) =
        .error .invalidLock ∧
      (∃ s', Shortfall.Base.activate_sectors gT netB 2 10 (.fin 100) (.init 0) =
        .ok (s', 2, Shortfall.initial_pledge_for_power gT netB 2)) ∧
      (∃ s', Shortfall.Base.activate_sectors gT netB 2 10 .inf (.init 0) =
        .ok (s', 2, Shortfall.initial_pledge_for_power gT netB 2)) ∧
      (∃ s', Shortfall.Burn.activate_sectors gT cfgBT netB 2 10 (.fin 0) (.init 0) =
        .ok (s', 2, Shortfall.initial_pledge_for_power gT netB 2 *
          (1 - cfgBT.max_shortfall_fraction))) ∧
      (∃ s', Shortfall.Burn.activate_sectors gT cfgBT netB 2 10 (.fin 100) (.init 0) =
        .ok (s', 2, Shortfall.initial_pledge_for_power gT netB 2)) ∧
      Shortfall.Burn.activate_sectors gT cfgBT netB 2 10 (.fin 30) (.init 0) =
        .error .invalidLock ∧
      locks_exactly (Shortfall.Ratchet.activate_sectors gT cfgRT netB 2 10
        (.fin 0) (.init 0))
        (Shortfall.initial_pledge_for_power gT netB 2 -
          cfgRT.max_repayment_reward_fraction * Shortfall.expected_reward_for_power netB
            2 (min 10 cfgRT.max_repayment_term) cfgRT.reward_projection_decay) ∧
      (∃ s', Shortfall.Ratchet.activate_sectors gT cfgRT netB 2 10 (.fin 100) (.init 0) =
        .ok (s', 2, Shortfall.initial_pledge_for_power gT netB 2)) ∧
      Shortfall.Ratchet.activate_sectors gT cfgRT netB 2 10 (.fin 30) (.init 0) =
        .error .invalidLock ∧
      locks_exactly (Toplevel.Proportional.activate_sectors gT netC 2 10
        (.fin 0) (.init 0))
        (Toplevel.initial_pledge_for_power gT netC 2 -
          Toplevel.Proportional.MAX_REPAYMENT_REWARD_FRACTION *
            Toplevel.expected_reward_for_power gT netC 2
              (min 10 (Toplevel.Proportional.MAX_REPAYMENT_TERM gT))) ∧
      locks_exactly (Toplevel.Proportional.activate_sectors gT netC 2 10
        (.fin 100) (.init 0)) (Toplevel.initial_pledge_for_power gT netC 2) ∧
      Toplevel.Proportional.activate_sectors gT netC 2 10 (.fin 30) (.init 0) =
        .error .invalidLock := by
  have hreq : Shortfall.initial_pledge_for_power gT netB 2 = 60 := by
    norm_num [Shortfall.initial_pledge_for_power, Shortfall.expected_reward_for_power,
      Shortfall.projected_reward, sum_over_exponential_decay, SUPPLY_LOCK_TARGET,
      Globals.INITIAL_PLEDGE_PROJECTION_PERIOD, gT, netB]
  have hreqP : Toplevel.initial_pledge_for_power gT netC 2 = 60 := by
    norm_num [Toplevel.initial_pledge_for_power, Toplevel.expected_reward_for_power,
      Toplevel.projected_reward, sum_over_exponential_decay, SUPPLY_LOCK_TARGET,
      Globals.INITIAL_PLEDGE_PROJECTION_PERIOD, gT, netC]
  have hexp : Shortfall.expected_reward_for_power netB 2
      (min 10 cfgRT.max_repayment_term) cfgRT.reward_projection_decay = 0 := by
    norm_num [Shortfall.expected_reward_for_power, Shortfall.projected_reward,
      sum_over_exponential_decay, cfgRT, netB]
  have hexpP : Toplevel.expected_reward_for_power gT netC 2
      (min 10 (Toplevel.Proportional.MAX_REPAYMENT_TERM gT)) = 0 := by
    norm_num [Toplevel.expected_reward_for_power, Toplevel.projected_reward,
      sum_over_exponential_decay, netC]
  exact C6_amended gT netB netC cfgBT cfgRT 2 10 (.init 0) (.init 0) (.init 0)
    (.init 0) 0 100 100 30 100 30 100 30
    (by norm_num [gT]) (by norm_num [gT])
    (by rw [hreq]; norm_num) (by rw [hreq]; norm_num)
    (by norm_num) (by rw [hreq]; norm_num)
    (by norm_num) (by rw [hreq]; norm_num)
    (by rw [hreq]; norm_num [cfgBT])
    (by norm_num) (by rw [hreq]; norm_num)
    (by norm_num) (by rw [hreq]; norm_num)
    (by rw [hreq, hexp]; norm_num [cfgRT, Shortfall.Ratchet.Cfg.max_repayment_reward_fraction])
    (by norm_num) (by rw [hreqP]; norm_num)
    (by norm_num) (by rw [hreqP]; norm_num)
    (by rw [hreqP, hexpP]; norm_num)
namespace Shortfall

end Shortfall

namespace Toplevel

end Toplevel

